import Mathlib

/-!
# go-api-template: a verification development

Shallow embedding of `main.go` (`main`, `NewRouter`) and
`infra/ports/rest/welcome.go` (`Server.WelcomeMessage`).

The program is glue around library calls (`net/http`, `chi`, `cors`, `os`,
`context`).  Each library call the program makes is represented by a small
definition that follows the documented contract of that call; those
definitions are marked "Library contract" in their doc comments.  The
definitions that embed the program's own functions keep the names they
have in the Go source.
-/

namespace GoApiTemplate

/-! ## net/http: headers, requests, response writers -/

/-- Library contract: `http.Header`, a map from header name to its list of values,
kept as an association list. -/
abbrev Header := List (String × List String)

/-- Library contract: `Header.Get`, the first value stored under the key, or the
empty string. -/
def Header.Get (h : Header) (key : String) : String :=
  match h.lookup key with
  | some (v :: _) => v
  | _ => ""

/-- Library contract: `Header.Del`, which removes the key. -/
def Header.Del (h : Header) (key : String) : Header :=
  h.filter (fun kv => kv.1 != key)

/-- Library contract: `Header.Set`, which replaces whatever is stored under the key
by the single value. -/
def Header.Set (h : Header) (key value : String) : Header :=
  (key, [value]) :: Header.Del h key

/-- Library contract: `Header.Add`, which appends the value to those stored under
the key. -/
def Header.Add (h : Header) (key value : String) : Header :=
  match h.lookup key with
  | some vs => (key, vs ++ [value]) :: Header.Del h key
  | none => (key, [value]) :: h

/-- An incoming `*http.Request`: everything a handler can read from it. -/
structure Request where
  method : String
  path : String
  query : String
  header : Header
  body : String
deriving DecidableEq, Repr

/-- Library contract: the state behind an `http.ResponseWriter`.  `header` is the
live map returned by `w.Header()`; `wroteHeader`, `status` and `sentHeader`
record the status line and the headers as they stood when the status line
was committed; `body` is everything written so far. -/
structure ResponseWriter where
  header : Header
  wroteHeader : Bool
  status : Nat
  sentHeader : Header
  body : String
deriving DecidableEq, Repr

/-- The response writer a handler chain receives for a new request. -/
def ResponseWriter.fresh : ResponseWriter :=
  { header := [], wroteHeader := false, status := 0, sentHeader := [], body := "" }

def StatusOK : Nat := 200

def StatusInternalServerError : Nat := 500

/-- Library contract: `w.WriteHeader(code)`.  The first call commits the status
code and the current headers; later calls are ignored. -/
def ResponseWriter.WriteHeader (w : ResponseWriter) (code : Nat) : ResponseWriter :=
  if w.wroteHeader then w
  else { w with wroteHeader := true, status := code, sentHeader := w.header }

/-- Library contract: `w.Write(data)`.  If `WriteHeader` has not been called yet,
`Write` calls `WriteHeader(http.StatusOK)` before writing the data. -/
def ResponseWriter.Write (w : ResponseWriter) (data : String) : ResponseWriter :=
  let w1 := if w.wroteHeader then w else w.WriteHeader StatusOK
  { w1 with body := w1.body ++ data }

/-- Update the live header map of a response writer (`w.Header().Set(...)` and
friends act on the map in place). -/
def ResponseWriter.mapHeader (w : ResponseWriter) (f : Header → Header) : ResponseWriter :=
  { w with header := f w.header }

/-- Library contract: `http.Error(w, error, code)`: drop `Content-Length`, set
`Content-Type: text/plain; charset=utf-8` and `X-Content-Type-Options: nosniff`,
write the status code, then print the error text followed by a newline. -/
def httpError (w : ResponseWriter) (error : String) (code : Nat) : ResponseWriter :=
  let w1 := w.mapHeader (fun h => Header.Del h "Content-Length")
  let w2 := w1.mapHeader (fun h => Header.Set h "Content-Type" "text/plain; charset=utf-8")
  let w3 := w2.mapHeader (fun h => Header.Set h "X-Content-Type-Options" "nosniff")
  let w4 := w3.WriteHeader code
  w4.Write (error ++ "\n")

/-! ## infra/ports/rest/welcome.go -/

/-- The receiver type `rest.Server`; `WelcomeMessage` reads no field of it. -/
structure Server where
deriving DecidableEq, Repr

/-- `func (s Server) WelcomeMessage(w http.ResponseWriter, r *http.Request)`:
one `w.Write` of the literal text; the request is not read. -/
def Server.WelcomeMessage (_s : Server) (w : ResponseWriter) (_r : Request) : ResponseWriter :=
  w.Write "Welcome to the REST API"

/-! ## main.go: the schema handler of `NewRouter` -/

/-- A Go `error` value.  `wrap` is what `fmt.Errorf` builds for a format with
one `%w` verb: its text, and the error it wraps. -/
inductive GoError where
  | base (msg : String)
  | wrap (msg : String) (inner : GoError)
deriving DecidableEq, Repr

/-- Library contract: `err.Error()`. -/
def GoError.Error : GoError → String
  | .base m => m
  | .wrap m _ => m

/-- Library contract: `errors.Unwrap(err)`. -/
def GoError.Unwrap : GoError → Option GoError
  | .base _ => none
  | .wrap _ e => some e

/-- The loaded API description, `*openapi3.T`.  Its only use in this program
is `swagger.MarshalJSON()`, whose Go result `([]byte, error)` for this value
is carried here: the returned bytes and the returned error (`none` for `nil`). -/
structure Swagger where
  marshalBytes : String
  marshalErr : Option GoError
deriving DecidableEq, Repr

/-- Library contract: `swagger.MarshalJSON()`. -/
def Swagger.MarshalJSON (s : Swagger) : String × Option GoError :=
  (s.marshalBytes, s.marshalErr)

/-- The function literal registered in `NewRouter` for
`GET /openapi/schema.json` (main.go lines 86-94), closed over `swagger`. -/
def schemaHandler (swagger : Swagger) (w : ResponseWriter) (_r : Request) : ResponseWriter :=
  match swagger.MarshalJSON with
  | (_, some _) => httpError w "Internal Server Error" StatusInternalServerError
  | (swaggerJson, none) =>
    let w1 := w.mapHeader (fun h => Header.Set h "Content-Type" "application/json")
    w1.Write swaggerJson

/-! ## Process outcomes -/

/-- The value a Go `panic` carries: an `error` interface value (`none` is the
nil interface), or the text a library panics with. -/
inductive PanicValue where
  | error (e : Option GoError)
  | text (msg : String)
deriving DecidableEq, Repr

/-- How a piece of the program ends: it returns, it calls `os.Exit(code)`, or
it panics. -/
inductive Outcome (α : Type) where
  | returned (a : α)
  | exited (code : Nat)
  | panicked (v : PanicValue)
deriving DecidableEq, Repr

/-- Exit status of the process when `main` ends with the outcome: 0 after a
return of `main`, the argument of `os.Exit`, and 2 after a panic nobody
recovers (the Go runtime prints the panic value and exits with status 2). -/
def Outcome.exitCode {α : Type} : Outcome α → Nat
  | .returned _ => 0
  | .exited code => code
  | .panicked _ => 2

def Outcome.isPanic {α : Type} : Outcome α → Bool
  | .panicked _ => true
  | _ => false

/-! ## Middleware and handlers installed by `NewRouter` -/

/-- The fields of `cors.Options` that `NewRouter` sets. -/
structure CorsOptions where
  AllowedOrigins : List String
  AllowedMethods : List String
  AllowedHeaders : List String
  ExposedHeaders : List String
  AllowCredentials : Bool
  MaxAge : Nat
deriving DecidableEq, Repr

/-- The field of `telemetry.Config` that `NewRouter` sets. -/
structure TelemetryConfig where
  AllowAny : Bool
deriving DecidableEq, Repr

/-- A middleware value, named by the constructor call that builds it. -/
inductive Middleware where
  | cors (options : CorsOptions)
  | telemetry (cfg : TelemetryConfig) (pathPrefixFilters : List String)
deriving DecidableEq, Repr

/-- An `http.Handler` value, named by the expression that builds it in
`NewRouter`: the schema function literal, `v5cdn.New(title, swaggerJSONPath,
basePath)`, and `rest.HandlerWithOptions(restSrv, opts)`.  The last is
generated code of the repository that is not among the sources; it is kept
as an opaque handler value, and whatever it does with the `BaseRouter` of
`opts` is not represented. -/
inductive Handler where
  | schema (swagger : Swagger)
  | docsUI (title swaggerJSONPath basePath : String)
  | generated (restSrv : Server)
deriving DecidableEq, Repr

/-! ## chi: the router -/

/-- The methods a route answers: every method (`mALL`) or a single one. -/
inductive Methods where
  | all
  | only (method : String)
deriving DecidableEq, Repr

/-- One endpoint of the routing tree: the pattern, the methods, the handler,
and the inline middlewares wrapped around the handler at registration. -/
structure Route where
  methods : Methods
  pattern : String
  inlineChain : List Middleware
  handler : Handler
deriving DecidableEq, Repr

/-- Library contract: `chi.Mux`.  `middlewares` is the middleware stack,
`routes` the routing tree (endpoints in order of registration; an inline mux
shares the tree of its parent), `handlerBuilt` says that the mux has
computed its handler (`mx.handler != nil`), after which `Use` is refused. -/
structure Mux where
  inline : Bool
  middlewares : List Middleware
  routes : List Route
  handlerBuilt : Bool
deriving DecidableEq, Repr

/-- What the program does that is visible from outside the function, in the
order it happens. -/
inductive Effect where
  | stderr (text : String)
  | exit (code : Nat)
  | newRouter
  | use (m : Middleware)
  | register (r : Route)
  | group
deriving DecidableEq, Repr

/-- A computation that appends to the effect trace and either yields a value
or panics with a text. -/
def ChiM (α : Type) : Type := List Effect → List Effect × Except String α

def ChiM.pure {α : Type} (a : α) : ChiM α := fun t => (t, .ok a)

def ChiM.bind {α β : Type} (m : ChiM α) (f : α → ChiM β) : ChiM β := fun t =>
  match m t with
  | (t1, .ok a) => f a t1
  | (t1, .error e) => (t1, .error e)

instance : Monad ChiM where
  pure := ChiM.pure
  bind := ChiM.bind

def ChiM.emit (e : Effect) : ChiM Unit := fun t => (t ++ [e], .ok ())

def ChiM.panic {α : Type} (msg : String) : ChiM α := fun t => (t, .error msg)

/-- Library contract: `chi.NewRouter()`, a mux with no middleware and no route. -/
def chi.NewRouter : ChiM Mux := do
  ChiM.emit .newRouter
  return { inline := false, middlewares := [], routes := [], handlerBuilt := false }

/-- Library contract: `mx.Use(middleware)`: appends to the middleware stack;
panics once the mux has built its handler, which happens at the first route. -/
def Mux.Use (mx : Mux) (m : Middleware) : ChiM Mux :=
  if mx.handlerBuilt then
    ChiM.panic "chi: all middlewares must be defined before routes on a mux"
  else do
    ChiM.emit (.use m)
    return { mx with middlewares := mx.middlewares ++ [m] }

/-- Library contract: `mx.handle(method, pattern, handler)`: the pattern must begin
with `/`; the mux builds its handler if it is not inline; the endpoint goes
into the tree, wrapped in the middlewares of an inline mux. -/
def Mux.handle (mx : Mux) (methods : Methods) (pattern : String) (h : Handler) : ChiM Mux :=
  if pattern.toList.head? != some '/' then
    ChiM.panic ("chi: routing pattern must begin with '/' in '" ++ pattern ++ "'")
  else do
    let route : Route :=
      { methods := methods, pattern := pattern,
        inlineChain := if mx.inline then mx.middlewares else [], handler := h }
    ChiM.emit (.register route)
    return { mx with routes := mx.routes ++ [route], handlerBuilt := true }

/-- Library contract: `mx.Get(pattern, handlerFn)`. -/
def Mux.Get (mx : Mux) (pattern : String) (h : Handler) : ChiM Mux :=
  mx.handle (.only "GET") pattern h

/-- Library contract: `mx.Handle(pattern, handler)` for a pattern without a method
part: the handler answers every method. -/
def Mux.Handle (mx : Mux) (pattern : String) (h : Handler) : ChiM Mux :=
  mx.handle .all pattern h

/-- Library contract: `mx.Group(fn)`, which is `fn(mx.With())`: a mux that is not
inline builds its handler, so it can take no further middleware; `fn` runs
on a fresh inline mux that shares the tree and starts from the inline
middlewares of its parent.  The result here is the parent, with the tree as
`fn` left it (`NewRouter` drops the inline mux that `Group` returns). -/
def Mux.Group (mx : Mux) (fn : Mux → ChiM Mux) : ChiM Mux := do
  ChiM.emit .group
  let im : Mux :=
    { inline := true, middlewares := if mx.inline then mx.middlewares else [],
      routes := mx.routes, handlerBuilt := false }
  let im1 ← fn im
  return { mx with routes := im1.routes, handlerBuilt := mx.handlerBuilt || !mx.inline }

/-- Library contract: `mx.Mount(pattern, handler)`: panics when the tree already has
`pattern*` or `pattern/*`; registers the handler for every method on
`pattern*`, and also on `pattern` and `pattern/` when the pattern does not
end in `/`. -/
def Mux.Mount (mx : Mux) (pattern : String) (h : Handler) : ChiM Mux :=
  if mx.routes.any (fun r => r.pattern == pattern ++ "*" || r.pattern == pattern ++ "/*") then
    ChiM.panic ("chi: attempting to Mount() a handler on an existing path, '" ++ pattern ++ "'")
  else if pattern.toList.getLast? != some '/' then do
    let mx1 ← mx.handle .all pattern h
    let mx2 ← mx1.handle .all (pattern ++ "/") h
    mx2.handle .all (pattern ++ "/*") h
  else
    mx.handle .all (pattern ++ "*") h

/-! ## main.go: `NewRouter` -/

/-- The `cors.Options` literal of `NewRouter` (main.go lines 72-79). -/
def corsOptions : CorsOptions :=
  { AllowedOrigins := ["https://*", "http://*"],
    AllowedMethods := ["GET", "POST", "PUT", "DELETE", "OPTIONS"],
    AllowedHeaders := ["Accept", "Authorization", "Content-Type", "X-CSRF-Token"],
    ExposedHeaders := ["Link"],
    AllowCredentials := false,
    MaxAge := 300 }

/-- The part of `NewRouter` after the swagger check (main.go lines 69-112):
the chi calls in source order.  The assignment `swagger.Servers = nil` of
line 67 is commented out in the source, so the description is used as it
was loaded. -/
def NewRouter.build (swagger : Swagger) (restSrv : Server) : ChiM Mux := do
  let r ← chi.NewRouter
  let r ← r.Use (.cors corsOptions)
  let r ← r.Use (.telemetry { AllowAny := true } [])
  let r ← r.Get "/openapi/schema.json" (.schema swagger)
  let r ← r.Handle "/docs"
    (.docsUI "Template project Backend API" "/openapi/schema.json" "/api/openapi/")
  let r ← r.Group (fun r => r.Mount "/" (.generated restSrv))
  return r

/-- One run of `NewRouter`: the effects in order, and how it ended. -/
structure RouterRun where
  trace : List Effect
  outcome : Outcome Mux
deriving DecidableEq, Repr

/-- `func NewRouter(restSrv rest.Server) chi.Router`.  `GetSwagger` is the result
of the call `rest.GetSwagger()` (generated code that is not among the
sources): `.error err` for a non-nil `err`, `.ok swagger` otherwise. -/
def NewRouter (GetSwagger : Except GoError Swagger) (restSrv : Server) : RouterRun :=
  match GetSwagger with
  | .error err =>
    { trace := [.stderr ("Error loading swagger spec\n: " ++ err.Error), .exit 1],
      outcome := .exited 1 }
  | .ok swagger =>
    match NewRouter.build swagger restSrv [] with
    | (t, .ok r) => { trace := t, outcome := .returned r }
    | (t, .error msg) => { trace := t, outcome := .panicked (.text msg) }

/-- The router `NewRouter` returns when the API description loads. -/
def loadedRouter (swagger : Swagger) (restSrv : Server) : Mux :=
  { inline := false,
    middlewares := [.cors corsOptions, .telemetry { AllowAny := true } []],
    routes :=
      [ { methods := .only "GET", pattern := "/openapi/schema.json", inlineChain := [],
          handler := .schema swagger },
        { methods := .all, pattern := "/docs", inlineChain := [],
          handler := .docsUI "Template project Backend API" "/openapi/schema.json"
            "/api/openapi/" },
        { methods := .all, pattern := "/*", inlineChain := [],
          handler := .generated restSrv } ],
    handlerBuilt := true }

/-! ## chi: serving a request -/

/-- Library contract: the methods chi knows (`methodMap`); a request with any other
method is answered 405 before the tree is searched. -/
def chi.methodMap : List String :=
  ["CONNECT", "DELETE", "GET", "HEAD", "OPTIONS", "PATCH", "POST", "PUT", "TRACE"]

def Methods.allows : Methods → String → Bool
  | .all, _ => true
  | .only m, method => m == method

/-- A pattern that ends in `*` is a catch-all: it matches every path that
begins with what stands before the `*`. -/
def Route.isCatchAll (r : Route) : Bool :=
  r.pattern.toList.getLast? == some '*'

def Route.matchesStatic (r : Route) (path : String) : Bool :=
  !r.isCatchAll && r.pattern == path

def Route.matchesCatchAll (r : Route) (path : String) : Bool :=
  r.isCatchAll && r.pattern.toList.dropLast.isPrefixOf path.toList

/-- Library contract: the search of the routing tree (`tree.FindRoute`), for trees
whose patterns are static text or static text followed by `*` (every
pattern `NewRouter` registers is one of the two).  A static endpoint that
spells the whole path and answers the method wins; otherwise the search
falls back to a catch-all endpoint that answers the method.  Of two
registrations of one pattern the later one counts. -/
def Mux.findRoute (mx : Mux) (method path : String) : Option Route :=
  if !chi.methodMap.contains method then none
  else
    match mx.routes.reverse.find? (fun r => r.methods.allows method && r.matchesStatic path) with
    | some r => some r
    | none =>
      mx.routes.reverse.find? (fun r => r.methods.allows method && r.matchesCatchAll path)

/-- What a mux runs for a request (`mx.ServeHTTP`): its middleware stack,
outermost first, around the endpoint found in the tree with the endpoint's
own inline middlewares. -/
structure Dispatch where
  chain : List Middleware
  endpoint : Option Handler
deriving DecidableEq, Repr

def Mux.dispatch (mx : Mux) (method path : String) : Dispatch :=
  match mx.findRoute method path with
  | some r => { chain := mx.middlewares ++ r.inlineChain, endpoint := some r.handler }
  | none => { chain := mx.middlewares, endpoint := none }

/-! ## go-chi/cors: the preflight path of the middleware -/

/-- Library contract: `strings.ToLower`, on ASCII letters. -/
def strings.ToLower (s : String) : String := String.mk (s.toList.map Char.toLower)

/-- Library contract: `strings.ToUpper`, on ASCII letters. -/
def strings.ToUpper (s : String) : String := String.mk (s.toList.map Char.toUpper)

/-- Library contract: `strings.Join`. -/
def strings.Join (elems : List String) (sep : String) : String := sep.intercalate elems

/-- Library contract: the token bytes of a header name (`validHeaderFieldByte`). -/
def validHeaderFieldByte (c : Char) : Bool :=
  c.isAlphanum || "!#$%&*+-.^_|~".toList.contains c || c == Char.ofNat 39 || c == Char.ofNat 96

def canonicalLoop : Bool → List Char → List Char
  | _, [] => []
  | upper, c :: cs => (if upper then c.toUpper else c.toLower) :: canonicalLoop (c == '-') cs

/-- Library contract: `http.CanonicalHeaderKey`: the first letter and every letter
after a hyphen in upper case, the others in lower case; a key with a byte
that is not a token byte is returned unchanged. -/
def http.CanonicalHeaderKey (s : String) : String :=
  if s.toList.all validHeaderFieldByte then String.mk (canonicalLoop true s.toList) else s

/-- Library contract: an allowed origin with a `*` in it, split around the `*`. -/
structure Wildcard where
  pre : String
  suf : String
deriving DecidableEq, Repr

/-- Library contract: `wildcard.match`. -/
def Wildcard.matches (w : Wildcard) (s : String) : Bool :=
  decide (w.pre.utf8ByteSize + w.suf.utf8ByteSize ≤ s.utf8ByteSize)
    && w.pre.toList.isPrefixOf s.toList && w.suf.toList.isSuffixOf s.toList

/-- Split at the first `*` (`strings.IndexByte(origin, '*')` and the two slices). -/
def splitAtStar : List Char → Option (List Char × List Char)
  | [] => none
  | c :: cs =>
    if c == '*' then some ([], cs)
    else match splitAtStar cs with
      | some (a, b) => some (c :: a, b)
      | none => none

/-- Library contract: the `*cors.Cors` value `cors.New` computes from the options. -/
structure Cors where
  allowedOrigins : List String
  allowedWOrigins : List Wildcard
  allowedOriginsAll : Bool
  allowedHeaders : List String
  allowedHeadersAll : Bool
  allowedMethods : List String
  exposedHeaders : List String
  allowCredentials : Bool
  maxAge : Nat
  optionPassthrough : Bool
deriving DecidableEq, Repr

/-- The loop of `cors.New` over `AllowedOrigins`; `none` stands for the early
exit at an origin `*`, which allows every origin. -/
def cors.originsLoop : List String → List String × List Wildcard →
    Option (List String × List Wildcard)
  | [], acc => some acc
  | o :: rest, (exact, wild) =>
    let origin := strings.ToLower o
    if origin == "*" then none
    else
      match splitAtStar origin.toList with
      | some (a, b) => cors.originsLoop rest (exact, wild ++ [⟨String.mk a, String.mk b⟩])
      | none => cors.originsLoop rest (exact ++ [origin], wild)

/-- Library contract: `cors.New(options)` for options without `AllowOriginFunc`,
`OptionsPassthrough` and `Debug` (none is set in `NewRouter`). -/
def cors.New (options : CorsOptions) : Cors :=
  let origins : Option (List String × List Wildcard) :=
    if options.AllowedOrigins.isEmpty then none
    else cors.originsLoop options.AllowedOrigins ([], [])
  let headersAll := options.AllowedHeaders.contains "*"
  { allowedOrigins := match origins with | some (e, _) => e | none => [],
    allowedWOrigins := match origins with | some (_, w) => w | none => [],
    allowedOriginsAll := origins.isNone,
    allowedHeaders :=
      if options.AllowedHeaders.isEmpty then ["Origin", "Accept", "Content-Type"]
      else if headersAll then []
      else (options.AllowedHeaders ++ ["Origin"]).map http.CanonicalHeaderKey,
    allowedHeadersAll := !options.AllowedHeaders.isEmpty && headersAll,
    allowedMethods :=
      if options.AllowedMethods.isEmpty then ["GET", "POST", "HEAD"]
      else options.AllowedMethods.map strings.ToUpper,
    exposedHeaders := options.ExposedHeaders.map http.CanonicalHeaderKey,
    allowCredentials := options.AllowCredentials,
    maxAge := options.MaxAge,
    optionPassthrough := false }

/-- Library contract: `c.isOriginAllowed`. -/
def Cors.isOriginAllowed (c : Cors) (origin : String) : Bool :=
  if c.allowedOriginsAll then true
  else
    let o := strings.ToLower origin
    c.allowedOrigins.contains o || c.allowedWOrigins.any (fun w => w.matches o)

/-- Library contract: `c.isMethodAllowed`. -/
def Cors.isMethodAllowed (c : Cors) (method : String) : Bool :=
  if c.allowedMethods.isEmpty then false
  else
    let m := strings.ToUpper method
    if m == "OPTIONS" then true else c.allowedMethods.contains m

/-- Library contract: `c.areHeadersAllowed`. -/
def Cors.areHeadersAllowed (c : Cors) (requestedHeaders : List String) : Bool :=
  if c.allowedHeadersAll || requestedHeaders.isEmpty then true
  else requestedHeaders.all (fun h => c.allowedHeaders.contains (http.CanonicalHeaderKey h))

/-- Library contract: `c.handlePreflight(w, r)`.  `parseHeaderList` is the library's
tokenizer of the `Access-Control-Request-Headers` value; it is a parameter,
so nothing here depends on how it splits the value. -/
def Cors.handlePreflight (c : Cors) (parseHeaderList : String → List String)
    (w : ResponseWriter) (r : Request) : ResponseWriter :=
  let origin := Header.Get r.header "Origin"
  if r.method != "OPTIONS" then w
  else
    let w := w.mapHeader (fun h => Header.Add h "Vary" "Origin")
    let w := w.mapHeader (fun h => Header.Add h "Vary" "Access-Control-Request-Method")
    let w := w.mapHeader (fun h => Header.Add h "Vary" "Access-Control-Request-Headers")
    if origin == "" then w
    else if !c.isOriginAllowed origin then w
    else
      let reqMethod := Header.Get r.header "Access-Control-Request-Method"
      if !c.isMethodAllowed reqMethod then w
      else
        let reqHeaders := parseHeaderList (Header.Get r.header "Access-Control-Request-Headers")
        if !c.areHeadersAllowed reqHeaders then w
        else
          let w := w.mapHeader (fun h =>
            Header.Set h "Access-Control-Allow-Origin" (if c.allowedOriginsAll then "*" else origin))
          let w := w.mapHeader (fun h =>
            Header.Set h "Access-Control-Allow-Methods" (strings.ToUpper reqMethod))
          let w := if reqHeaders.isEmpty then w else
            w.mapHeader (fun h =>
              Header.Set h "Access-Control-Allow-Headers" (strings.Join reqHeaders ", "))
          let w := if c.allowCredentials then
            w.mapHeader (fun h => Header.Set h "Access-Control-Allow-Credentials" "true") else w
          if 0 < c.maxAge then
            w.mapHeader (fun h => Header.Set h "Access-Control-Max-Age" (toString c.maxAge))
          else w

/-- Library contract: `c.handleActualRequest(w, r)`. -/
def Cors.handleActualRequest (c : Cors) (w : ResponseWriter) (r : Request) : ResponseWriter :=
  let origin := Header.Get r.header "Origin"
  let w := w.mapHeader (fun h => Header.Add h "Vary" "Origin")
  if origin == "" then w
  else if !c.isOriginAllowed origin then w
  else if !c.isMethodAllowed r.method then w
  else
    let w := w.mapHeader (fun h =>
      Header.Set h "Access-Control-Allow-Origin" (if c.allowedOriginsAll then "*" else origin))
    let w := if c.exposedHeaders.isEmpty then w else
      w.mapHeader (fun h =>
        Header.Set h "Access-Control-Expose-Headers" (strings.Join c.exposedHeaders ", "))
    if c.allowCredentials then
      w.mapHeader (fun h => Header.Set h "Access-Control-Allow-Credentials" "true")
    else w

/-- Library contract: the handler `cors.Handler(options)` wraps around `next`.  An
`OPTIONS` request with an `Access-Control-Request-Method` header is a
preflight: it is answered here and `next` does not run. -/
def Cors.Handler (c : Cors) (parseHeaderList : String → List String)
    (next : ResponseWriter → Request → ResponseWriter)
    (w : ResponseWriter) (r : Request) : ResponseWriter :=
  if r.method == "OPTIONS" && Header.Get r.header "Access-Control-Request-Method" != "" then
    let w1 := c.handlePreflight parseHeaderList w r
    if c.optionPassthrough then next w1 r else w1.WriteHeader StatusOK
  else
    next (c.handleActualRequest w r) r

/-- The CORS middleware as `NewRouter` installs it: `cors.Handler(corsOptions)`. -/
def installedCors (parseHeaderList : String → List String)
    (next : ResponseWriter → Request → ResponseWriter) :
    ResponseWriter → Request → ResponseWriter :=
  (cors.New corsOptions).Handler parseHeaderList next

/-- The value in `cors.New corsOptions`, written out. -/
def installedCorsValue : Cors :=
  { allowedOrigins := [],
    allowedWOrigins := [⟨"https://", ""⟩, ⟨"http://", ""⟩],
    allowedOriginsAll := false,
    allowedHeaders := ["Accept", "Authorization", "Content-Type", "X-Csrf-Token", "Origin"],
    allowedHeadersAll := false,
    allowedMethods := ["GET", "POST", "PUT", "DELETE", "OPTIONS"],
    exposedHeaders := ["Link"],
    allowCredentials := false,
    maxAge := 300,
    optionPassthrough := false }

/-! ## Serving a request through the middleware stack -/

/-- Whether `c.Handler` answers the request itself, without running `next`:
the request is a preflight and `OptionsPassthrough` is off (the first branch
of `Cors.Handler`). -/
def Cors.answersItself (c : Cors) (r : Request) : Bool :=
  (r.method == "OPTIONS" && Header.Get r.header "Access-Control-Request-Method" != "")
    && !c.optionPassthrough

/-- Library contract: `strings.EqualFold`, on ASCII letters. -/
def strings.EqualFold (a b : String) : Bool := strings.ToLower a == strings.ToLower b

/-- The policy a middleware value carries: `Middleware.cors options` stands
for `cors.Handler(options)`, the handler of `cors.New(options)`. -/
def Middleware.policy : Middleware → Option Cors
  | .cors options => some (cors.New options)
  | .telemetry _ _ => none

/-- Whether the middleware answers the request itself, without running
`next`.  Library contracts: the CORS handler answers preflight requests; the
handler of `telemetry.Collector` exposes the metrics page, it answers `GET`
requests for the path `/metrics` (compared without regard to case) and hands
every other request on. -/
def Middleware.answers : Middleware → Request → Bool
  | .cors options, r => (cors.New options).answersItself r
  | .telemetry _ _, r => r.method == "GET" && strings.EqualFold r.path "/metrics"

/-- Who writes the response to a request: a middleware that answers itself,
the endpoint found in the tree, or chi's not-found and method-not-allowed
handlers when the tree has no endpoint for the request. -/
inductive Served where
  | byMiddleware (m : Middleware)
  | byEndpoint (h : Handler)
  | byNobody
deriving DecidableEq, Repr

/-- Library contract: `mx.ServeHTTP(w, r)`: the middlewares of the chain run in
order, the first that answers the request itself ends the handling, and the
endpoint runs only if every middleware hands the request on. -/
def Mux.ServeHTTP (mx : Mux) (r : Request) : Served :=
  match (mx.dispatch r.method r.path).chain.find? (fun m => m.answers r) with
  | some m => .byMiddleware m
  | none =>
    match (mx.dispatch r.method r.path).endpoint with
    | some h => .byEndpoint h
    | none => .byNobody

/-- Who answers a request sent to the router built by `NewRouter` (`none`
when `NewRouter` returns no router). -/
def servedBy (GetSwagger : Except GoError Swagger) (restSrv : Server) (r : Request) :
    Option Served :=
  match (NewRouter GetSwagger restSrv).outcome with
  | .returned mx => some (mx.ServeHTTP r)
  | _ => none

/-- The CORS policy of the first middleware of the router built by
`NewRouter`. -/
def installedPolicy (GetSwagger : Except GoError Swagger) (restSrv : Server) : Option Cors :=
  match (NewRouter GetSwagger restSrv).outcome with
  | .returned mx => mx.middlewares.head?.bind Middleware.policy
  | _ => none

/-! ## main.go: `main`

`main` runs two tasks: the goroutine around `srv.ListenAndServe()` and the
`select` of `main` itself.  They are embedded as a transition system: a
state, and one action for each statement of the two tasks and for each thing
the environment can do (deliver the interrupt, make the listener return,
open a connection, let time pass).  Any interleaving of the two tasks is a
list of actions. -/

/-- The constant `time.Second`, in nanoseconds (the unit of `time.Duration`). -/
def Second : Nat := 1000000000

/-- The argument `time.Second*10` of `context.WithTimeout` in `main`. -/
def shutdownTimeout : Nat := Second * 10

/-- A buffered Go channel of `error`: capacity, queued values, closed flag. -/
structure Chan where
  cap : Nat
  buf : List GoError
  closed : Bool
deriving DecidableEq, Repr

/-- `fmt.Errorf("failed to start server: %w", err)`. -/
def startError (err : GoError) : GoError :=
  .wrap ("failed to start server: " ++ err.Error) err

/-- Where the goroutine of main.go lines 40-46 stands. -/
inductive ListenerPc where
  | notStarted
  | listening
  | returned (err : Option GoError)
  | closing
  | finished
deriving DecidableEq, Repr

/-- Where `main` stands: blocked in the `select`, inside `srv.Shutdown` with
the deadline of its context, or ended. -/
inductive MainPc where
  | select
  | shutdown (deadline : Nat)
  | ended (o : Outcome Unit)
deriving DecidableEq, Repr

/-- The state of the process: the clock `now` in nanoseconds; what was
printed; `srv.Addr` and `srv.Handler`; whether `ctx.Done()` is closed; the
channel `ch`; where the two tasks stand; whether the server accepts
connections; for each request being served the nanoseconds of work it still
needs, and the number of requests served to the end; the calls of
`srv.Shutdown` as pairs (time of the call, deadline of its context).  `sent`
and `listenErr` are history: the values sent on `ch` so far, and what
`srv.ListenAndServe()` returned. -/
structure State where
  now : Nat
  stdout : String
  stderr : String
  addr : String
  handler : Option Mux
  ctxDone : Bool
  ch : Chan
  listener : ListenerPc
  main : MainPc
  accepting : Bool
  inflight : List Nat
  completed : Nat
  shutdownCalls : List (Nat × Nat)
  sent : List GoError
  listenErr : Option (Option GoError)
deriving DecidableEq, Repr

/-- `rest.NewServer()`. -/
def rest.NewServer : Server := {}

/-- The text `NewRouter` prints on standard error in a run. -/
def RouterRun.stderrText (run : RouterRun) : String :=
  String.join (run.trace.map (fun e => match e with | .stderr t => t | _ => ""))

/-- `main` from its first line to the `select` (main.go lines 18-47), at time
`t0`: the call of `NewRouter`, which may end the process, the server value,
the line on standard output, the channel of capacity 1, the start of the
goroutine. -/
def main.start (GetSwagger : Except GoError Swagger) (t0 : Nat) : State :=
  let run := NewRouter GetSwagger rest.NewServer
  let idle : State :=
    { now := t0, stdout := "", stderr := run.stderrText, addr := "", handler := none,
      ctxDone := false, ch := { cap := 0, buf := [], closed := false },
      listener := .notStarted, main := .select, accepting := false, inflight := [],
      completed := 0, shutdownCalls := [], sent := [], listenErr := none }
  match run.outcome with
  | .exited code => { idle with main := .ended (.exited code) }
  | .panicked v => { idle with main := .ended (.panicked v) }
  | .returned r =>
    { idle with
      addr := ":8080", handler := some r,
      stdout := "Server is starting at 8080\n",
      ch := { cap := 1, buf := [], closed := false },
      listener := .listening }

/-- One step of the process. -/
inductive Action where
  /-- The interrupt signal arrives: `ctx.Done()` is closed. -/
  | interrupt
  /-- Inside `ListenAndServe`: the socket is bound and connections are accepted. -/
  | bind
  /-- `srv.ListenAndServe()` returns `err`. -/
  | listenReturn (err : Option GoError)
  /-- A connection is accepted; its request needs `work` nanoseconds. -/
  | accept (work : Nat)
  /-- `d` nanoseconds pass. -/
  | tick (d : Nat)
  /-- The goroutine runs `if err != nil { ch <- fmt.Errorf(...) }`. -/
  | listenerIf
  /-- The goroutine runs `close(ch)`. -/
  | listenerClose
  /-- The `select` takes `case err := <-ch` and runs `panic(err)`. -/
  | mainRecv
  /-- The `select` takes `case <-ctx.Done()`: `context.WithTimeout` and the call
  of `srv.Shutdown(timeout)`. -/
  | mainCtxDone
  /-- `srv.Shutdown` returns `err`; `main` drops it and returns. -/
  | shutdownReturn (err : Option GoError)
deriving DecidableEq, Repr

/-- Actions of the two tasks of the program, as opposed to the environment. -/
def Action.isProgram : Action → Bool
  | .listenerIf | .listenerClose | .mainRecv | .mainCtxDone => true
  | _ => false

def MainPc.isEnded : MainPc → Bool
  | .ended _ => true
  | _ => false

/-- Requests still being served after `d` nanoseconds, with the work left. -/
def advance (d : Nat) (inflight : List Nat) : List Nat :=
  (inflight.filter (fun w => d < w)).map (fun w => w - d)

/-- The step function: `none` when the action cannot happen in the state.
Nothing happens after `main` has ended, since the process is gone (the two
deferred `cancel()` calls run at that point and change nothing that the
state records).

Library contracts used: a send on a buffered channel needs a free slot; a
receive takes the oldest queued value, or the zero value once the channel
is closed and empty; `srv.Shutdown(ctx)` closes the listeners at once, then
returns when no request is in flight or when the deadline of `ctx` is
reached, whichever comes first. -/
def main.step (s : State) (a : Action) : Option State :=
  if s.main.isEnded then none
  else
    match a with
    | .interrupt => some { s with ctxDone := true }
    | .bind =>
      if s.listener = .listening ∧ s.accepting = false ∧ s.shutdownCalls = [] then
        some { s with accepting := true }
      else none
    | .listenReturn err =>
      if s.listener = .listening then
        some { s with listener := .returned err, accepting := false, listenErr := some err }
      else none
    | .accept work =>
      if s.accepting then some { s with inflight := work :: s.inflight } else none
    | .tick d =>
      match s.main with
      | .shutdown deadline =>
        if s.inflight ≠ [] ∧ s.now + d ≤ deadline then
          some { s with now := s.now + d, inflight := advance d s.inflight,
                        completed := s.completed + (s.inflight.filter (fun w => w ≤ d)).length }
        else none
      | _ =>
        some { s with now := s.now + d, inflight := advance d s.inflight,
                      completed := s.completed + (s.inflight.filter (fun w => w ≤ d)).length }
    | .listenerIf =>
      match s.listener with
      | .returned (some err) =>
        if s.ch.buf.length < s.ch.cap then
          some { s with ch := { s.ch with buf := s.ch.buf ++ [startError err] },
                        sent := s.sent ++ [startError err], listener := .closing }
        else none
      | .returned none => some { s with listener := .closing }
      | _ => none
    | .listenerClose =>
      if s.listener = .closing then
        some { s with ch := { s.ch with closed := true }, listener := .finished }
      else none
    | .mainRecv =>
      match s.main, s.ch.buf with
      | .select, err :: rest =>
        some { s with ch := { s.ch with buf := rest },
                      main := .ended (.panicked (.error (some err))) }
      | .select, [] =>
        if s.ch.closed then some { s with main := .ended (.panicked (.error none)) } else none
      | _, _ => none
    | .mainCtxDone =>
      if s.main = .select ∧ s.ctxDone = true then
        some { s with main := .shutdown (s.now + shutdownTimeout), accepting := false,
                      shutdownCalls := s.shutdownCalls ++ [(s.now, s.now + shutdownTimeout)] }
      else none
    | .shutdownReturn _ =>
      match s.main with
      | .shutdown deadline =>
        if s.inflight = [] ∨ deadline ≤ s.now then some { s with main := .ended (.returned ()) }
        else none
      | _ => none

/-- Run a list of actions, in order. -/
def main.run : List Action → State → Option State
  | [], s => some s
  | a :: rest, s =>
    match main.step s a with
    | some s1 => main.run rest s1
    | none => none

/-- The states `main` can be in: those some list of actions leads to, from
the state at the `select`. -/
def Reachable (GetSwagger : Except GoError Swagger) (t0 : Nat) (s : State) : Prop :=
  ∃ acts : List Action, main.run acts (main.start GetSwagger t0) = some s

/-- Exit status of the process in a state where `main` has ended. -/
def State.exitCode (s : State) : Option Nat :=
  match s.main with
  | .ended o => some o.exitCode
  | _ => none

/-- What the position of the goroutine says about the channel and the
history. -/
def listenerInv (s : State) : Prop :=
  match s.listener with
  | .notStarted => False
  | .listening => s.listenErr = none ∧ s.sent = [] ∧ s.ch.closed = false
  | .returned e => s.listenErr = some e ∧ s.sent = [] ∧ s.ch.closed = false
  | .closing =>
    ∃ e, s.listenErr = some e ∧ s.sent = (e.map startError).toList ∧ s.ch.closed = false
  | .finished =>
    ∃ e, s.listenErr = some e ∧ s.sent = (e.map startError).toList ∧ s.ch.closed = true

/-- What the position of `main` says about the calls of `srv.Shutdown`, the
clock and the channel. -/
def mainInv (s : State) : Prop :=
  match s.main with
  | .select => s.shutdownCalls = [] ∧ s.ch.buf = s.sent
  | .shutdown deadline =>
    ∃ t, s.shutdownCalls = [(t, t + shutdownTimeout)] ∧ deadline = t + shutdownTimeout
      ∧ t ≤ s.now ∧ s.now ≤ deadline ∧ s.accepting = false ∧ s.ctxDone = true
      ∧ s.ch.buf = s.sent
  | .ended (.returned _) =>
    ∃ t, s.shutdownCalls = [(t, t + shutdownTimeout)]
      ∧ t ≤ s.now ∧ s.now ≤ t + shutdownTimeout ∧ s.accepting = false ∧ s.ctxDone = true
      ∧ (s.inflight = [] ∨ s.now = t + shutdownTimeout) ∧ s.ch.buf = s.sent
  | .ended (.panicked v) =>
    s.shutdownCalls = [] ∧ s.ch.buf = []
      ∧ ((∃ x, v = .error (some x) ∧ s.sent = [x])
        ∨ (v = .error none ∧ s.sent = [] ∧ s.ch.closed = true))
  | .ended (.exited _) => False

/-- The invariant of the running process. -/
def Inv (s : State) : Prop :=
  s.ch.cap = 1 ∧ listenerInv s ∧ mainInv s

/-- The state after a list of actions (the state itself when some action of
the list cannot happen). -/
def main.after (acts : List Action) (s : State) : State :=
  (main.run acts s).getD s

/-- A run in which the listener fails while serving: the socket is bound,
`srv.ListenAndServe()` returns an error, the goroutine sends and closes, and
the `select` takes the channel case. -/
def listenFailureRun : List Action :=
  [.bind, .listenReturn (some (.base "accept tcp: too many open files")),
    .listenerIf, .listenerClose, .mainRecv]

/-- A run with an interrupt: the socket is bound, a request needing 5000 ns
arrives, the interrupt arrives, the `select` takes the `ctx.Done()` case,
5000 ns pass, `srv.Shutdown` returns. -/
def interruptRun : List Action :=
  [.bind, .accept 5000, .interrupt, .mainCtxDone, .tick 5000, .shutdownReturn none]

/-! # Properties -/

theorem cors_New_corsOptions : cors.New corsOptions = installedCorsValue := by
  decide

theorem NewRouter_ok (swagger : Swagger) (restSrv : Server) :
    (NewRouter (.ok swagger) restSrv).outcome = .returned (loadedRouter swagger restSrv) := by
  rfl

/-! ## The handlers -/

theorem Header.Get_Set (h : Header) (key value : String) :
    Header.Get (Header.Set h key value) key = value := by
  simp [Header.Get, Header.Set, List.lookup]

/-- C1: for every server value, every request and every response writer that
has not committed its status line, `WelcomeMessage` leaves status 200 and
appends exactly the text "Welcome to the REST API" to the body; on the fresh
writer of a new request the response is status 200 with exactly that body,
the same for any two requests. -/
theorem C1_WelcomeMessage_response (s : Server) (r : Request) :
    (s.WelcomeMessage ResponseWriter.fresh r).status = 200
    ∧ (s.WelcomeMessage ResponseWriter.fresh r).body = "Welcome to the REST API"
    ∧ (∀ w : ResponseWriter, (s.WelcomeMessage w r).body = w.body ++ "Welcome to the REST API"
        ∧ (s.WelcomeMessage w r).status = if w.wroteHeader then w.status else 200)
    ∧ (∀ (s2 : Server) (r2 : Request) (w : ResponseWriter),
        s2.WelcomeMessage w r2 = s.WelcomeMessage w r) := by
  refine ⟨rfl, rfl, ?_, ?_⟩
  · intro w
    cases hw : w.wroteHeader <;>
      simp [Server.WelcomeMessage, ResponseWriter.Write, ResponseWriter.WriteHeader, hw, StatusOK]
  · intro s2 r2 w
    rfl

/-- C2: for every request and every response writer that has not committed
its status line and holds no body yet, the schema handler answers as follows.
If `swagger.MarshalJSON()` returns no error: status 200, `Content-Type` equal
to `application/json`, body exactly the serialized bytes.  If it returns an
error: status 500, body the text of `http.Error` and none of the bytes
`MarshalJSON` returned, `Content-Type` equal to `text/plain; charset=utf-8`.
The status is 500 exactly when serialization fails. -/
theorem C2_schemaHandler_response (swagger : Swagger) (w : ResponseWriter) (r : Request)
    (hw : w.wroteHeader = false) (hb : w.body = "") :
    (swagger.marshalErr = none →
        (schemaHandler swagger w r).status = 200
        ∧ Header.Get (schemaHandler swagger w r).sentHeader "Content-Type" = "application/json"
        ∧ (schemaHandler swagger w r).body = swagger.marshalBytes)
    ∧ (swagger.marshalErr ≠ none →
        (schemaHandler swagger w r).status = 500
        ∧ (schemaHandler swagger w r).body = "Internal Server Error\n"
        ∧ Header.Get (schemaHandler swagger w r).sentHeader "Content-Type"
            = "text/plain; charset=utf-8"
        ∧ Header.Get (schemaHandler swagger w r).sentHeader "Content-Type"
            ≠ "application/json")
    ∧ ((schemaHandler swagger w r).status = 500 ↔ swagger.marshalErr ≠ none) := by
  obtain ⟨bytes, err⟩ := swagger
  cases err with
  | none =>
    simp [schemaHandler, Swagger.MarshalJSON, ResponseWriter.Write, ResponseWriter.WriteHeader,
      ResponseWriter.mapHeader, hw, hb, StatusOK, Header.Get_Set]
  | some e =>
    simp [schemaHandler, Swagger.MarshalJSON, httpError, ResponseWriter.Write,
      ResponseWriter.WriteHeader, ResponseWriter.mapHeader, hw, hb, StatusInternalServerError,
      Header.Get, Header.Set, Header.Del, List.lookup]

/-- C2 at two concrete descriptions: one that serializes to `{}`, one whose
serialization fails. -/
theorem C2_schemaHandler_response_witness :
    (schemaHandler ⟨"\x7b\x7d", none⟩ ResponseWriter.fresh ⟨"GET", "/openapi/schema.json", "", [], ""⟩).body
        = "\x7b\x7d"
    ∧ (schemaHandler ⟨"half", some (.base "unsupported value")⟩ ResponseWriter.fresh
        ⟨"GET", "/openapi/schema.json", "", [], ""⟩).status = 500 :=
  ⟨((C2_schemaHandler_response ⟨"\x7b\x7d", none⟩ ResponseWriter.fresh
      ⟨"GET", "/openapi/schema.json", "", [], ""⟩ rfl rfl).1 rfl).2.2,
   ((C2_schemaHandler_response ⟨"half", some (.base "unsupported value")⟩ ResponseWriter.fresh
      ⟨"GET", "/openapi/schema.json", "", [], ""⟩ rfl rfl).2.1 (by simp)).1⟩

/-! ## `NewRouter` -/

/-- The effects of `NewRouter` when the API description loads, in order. -/
theorem NewRouter_ok_trace (swagger : Swagger) (restSrv : Server) :
    (NewRouter (.ok swagger) restSrv).trace =
      [ .newRouter,
        .use (.cors corsOptions),
        .use (.telemetry { AllowAny := true } []),
        .register { methods := .only "GET", pattern := "/openapi/schema.json", inlineChain := [],
                    handler := .schema swagger },
        .register { methods := .all, pattern := "/docs", inlineChain := [],
                    handler := .docsUI "Template project Backend API" "/openapi/schema.json"
                      "/api/openapi/" },
        .group,
        .register { methods := .all, pattern := "/*", inlineChain := [],
                    handler := .generated restSrv } ] := by
  rfl

/-- C4: when `rest.GetSwagger()` returns an error, `NewRouter` does exactly
two things, in this order: it writes the error report on standard error and
calls `os.Exit(1)`; the exit status 1 is not zero, no chi call happens (no
router is created, no middleware attached, no route registered) and no
router is returned.  When `rest.GetSwagger()` succeeds, `NewRouter` returns a
router, and neither writes on standard error nor exits. -/
theorem C4_NewRouter_fail_fast (err : GoError) (swagger : Swagger) (restSrv : Server) :
    (NewRouter (.error err) restSrv).trace =
        [.stderr ("Error loading swagger spec\n: " ++ err.Error), .exit 1]
    ∧ (NewRouter (.error err) restSrv).outcome = .exited 1
    ∧ (NewRouter (.error err) restSrv).outcome.exitCode ≠ 0
    ∧ (∀ r : Mux, (NewRouter (.error err) restSrv).outcome ≠ .returned r)
    ∧ Effect.newRouter ∉ (NewRouter (.error err) restSrv).trace
    ∧ (∀ m : Middleware, Effect.use m ∉ (NewRouter (.error err) restSrv).trace)
    ∧ (∀ r : Route, Effect.register r ∉ (NewRouter (.error err) restSrv).trace)
    ∧ (∃ r : Mux, (NewRouter (.ok swagger) restSrv).outcome = .returned r)
    ∧ (∀ code : Nat, Effect.exit code ∉ (NewRouter (.ok swagger) restSrv).trace)
    ∧ (∀ text : String, Effect.stderr text ∉ (NewRouter (.ok swagger) restSrv).trace) := by
  refine ⟨rfl, rfl, by simp [NewRouter, Outcome.exitCode], ?_, ?_, ?_, ?_,
    ⟨_, NewRouter_ok swagger restSrv⟩, ?_, ?_⟩
  · intro r h
    simp [NewRouter] at h
  · simp [NewRouter]
  · intro m
    simp [NewRouter]
  · intro r
    simp [NewRouter]
  · intro code
    rw [NewRouter_ok_trace]
    simp
  · intro text
    rw [NewRouter_ok_trace]
    simp

/-! ## The CORS middleware on preflight requests -/

/-- C9, the claim as stated fails: a preflight request with `Origin: null`
that asks for the configured method GET gets an answer without
`Access-Control-Allow-Origin`, `Access-Control-Allow-Methods` or
`Access-Control-Allow-Headers`: the origin matches neither `https://*` nor
`http://*`. -/
theorem C9_null_origin_counterexample :
    (cors.New corsOptions).isOriginAllowed "null" = false
    ∧ Header.Get (installedCors (fun _ => []) (fun w _ => w) ResponseWriter.fresh
        ⟨"OPTIONS", "/", "", [("Origin", ["null"]), ("Access-Control-Request-Method", ["GET"])],
          ""⟩).sentHeader "Access-Control-Allow-Origin" = ""
    ∧ Header.Get (installedCors (fun _ => []) (fun w _ => w) ResponseWriter.fresh
        ⟨"OPTIONS", "/", "", [("Origin", ["null"]), ("Access-Control-Request-Method", ["GET"])],
          ""⟩).sentHeader "Access-Control-Allow-Methods" = ""
    ∧ Header.Get (installedCors (fun _ => []) (fun w _ => w) ResponseWriter.fresh
        ⟨"OPTIONS", "/", "", [("Origin", ["null"]), ("Access-Control-Request-Method", ["GET"])],
          ""⟩).sentHeader "Access-Control-Allow-Headers" = "" := by
  decide

theorem Wildcard.matches_of_isPrefixOf (p s : String)
    (h : p.toList.isPrefixOf s.toList = true) : (Wildcard.mk p "").matches s = true := by
  obtain ⟨t, ht⟩ := List.isPrefixOf_iff_prefix.mp h
  have hs : s = ⟨p.toList ++ t⟩ := by
    cases s
    simp only [String.toList] at ht
    simp [ht]
  subst hs
  cases p
  have h0 : "".utf8ByteSize = 0 := rfl
  simp [Wildcard.matches, List.isSuffixOf, h0]

theorem installed_isOriginAllowed (origin : String)
    (ho : "https://".toList.isPrefixOf (strings.ToLower origin).toList = true
      ∨ "http://".toList.isPrefixOf (strings.ToLower origin).toList = true) :
    installedCorsValue.isOriginAllowed origin = true := by
  rcases ho with h | h
  · have := Wildcard.matches_of_isPrefixOf _ _ h
    simp [Cors.isOriginAllowed, installedCorsValue, this]
  · have := Wildcard.matches_of_isPrefixOf _ _ h
    simp [Cors.isOriginAllowed, installedCorsValue, this]

theorem origin_ne_empty (origin : String)
    (ho : "https://".toList.isPrefixOf (strings.ToLower origin).toList = true
      ∨ "http://".toList.isPrefixOf (strings.ToLower origin).toList = true) :
    origin ≠ "" := by
  intro h
  subst h
  revert ho
  decide

/-- C9, amended: for every preflight request (method OPTIONS) whose `Origin`,
in lower case, begins with `https://` or `http://`, that asks for one of the
configured methods and only for configured headers, the CORS middleware
answers by itself with an empty body, and the response carries `Access-Control-Allow-Origin` equal to the origin,
`Access-Control-Allow-Methods` equal to the requested method,
`Access-Control-Allow-Headers` equal to the requested headers,
`Access-Control-Max-Age: 300`, and no `Access-Control-Allow-Credentials`. -/
theorem C9_preflight_allowed (parseHeaderList : String → List String)
    (next : ResponseWriter → Request → ResponseWriter) (r : Request)
    (hm : r.method = "OPTIONS")
    (ho : "https://".toList.isPrefixOf (strings.ToLower (Header.Get r.header "Origin")).toList = true
      ∨ "http://".toList.isPrefixOf (strings.ToLower (Header.Get r.header "Origin")).toList = true)
    (hrm : strings.ToUpper (Header.Get r.header "Access-Control-Request-Method")
      ∈ corsOptions.AllowedMethods)
    (hh : ∀ h ∈ parseHeaderList (Header.Get r.header "Access-Control-Request-Headers"),
      http.CanonicalHeaderKey h ∈ corsOptions.AllowedHeaders.map http.CanonicalHeaderKey) :
    (installedCors parseHeaderList next ResponseWriter.fresh r).body = ""
    ∧ Header.Get (installedCors parseHeaderList next ResponseWriter.fresh r).sentHeader
        "Access-Control-Allow-Origin" = Header.Get r.header "Origin"
    ∧ Header.Get (installedCors parseHeaderList next ResponseWriter.fresh r).sentHeader
        "Access-Control-Allow-Methods"
        = strings.ToUpper (Header.Get r.header "Access-Control-Request-Method")
    ∧ Header.Get (installedCors parseHeaderList next ResponseWriter.fresh r).sentHeader
        "Access-Control-Allow-Headers"
        = strings.Join (parseHeaderList (Header.Get r.header "Access-Control-Request-Headers")) ", "
    ∧ Header.Get (installedCors parseHeaderList next ResponseWriter.fresh r).sentHeader
        "Access-Control-Max-Age" = "300"
    ∧ Header.Get (installedCors parseHeaderList next ResponseWriter.fresh r).sentHeader
        "Access-Control-Allow-Credentials" = "" := by
  have horigin := installed_isOriginAllowed _ ho
  have hne := origin_ne_empty _ ho
  generalize hoe : Header.Get r.header "Origin" = origin at *
  generalize hq : Header.Get r.header "Access-Control-Request-Method" = reqMethod at *
  generalize hl : parseHeaderList (Header.Get r.header "Access-Control-Request-Headers")
    = reqHeaders at *
  have hrm0 : reqMethod ≠ "" := by
    intro h
    subst h
    revert hrm
    decide
  have hmeth : installedCorsValue.isMethodAllowed reqMethod = true := by
    simp only [Cors.isMethodAllowed, installedCorsValue]
    simp only [corsOptions] at hrm
    split
    · rename_i h; simp at h
    · split
      · rfl
      · simpa using hrm
  have hhead : installedCorsValue.areHeadersAllowed reqHeaders = true := by
    simp only [Cors.areHeadersAllowed, installedCorsValue]
    split
    · rfl
    · rw [List.all_eq_true]
      intro h hmem
      have := hh h hmem
      have hmap : corsOptions.AllowedHeaders.map http.CanonicalHeaderKey
          = ["Accept", "Authorization", "Content-Type", "X-Csrf-Token"] := by decide
      rw [hmap] at this
      simp only [List.contains_eq_any_beq, List.any_eq_true]
      refine ⟨http.CanonicalHeaderKey h, ?_, by simp⟩
      simp only [List.mem_cons] at this ⊢
      tauto
  have hor : (origin == "") = false := by simpa using hne
  have hrq : (reqMethod != "") = true := by simpa using hrm0
  have hval : installedCorsValue.allowedOriginsAll = false
      ∧ installedCorsValue.allowCredentials = false
      ∧ installedCorsValue.maxAge = 300
      ∧ installedCorsValue.optionPassthrough = false := ⟨rfl, rfl, rfl, rfl⟩
  obtain ⟨hv1, hv2, hv3, hv4⟩ := hval
  have h300 : toString 300 = "300" := by decide
  cases hemp : reqHeaders.isEmpty
  · simp only [installedCors, cors_New_corsOptions, Cors.Handler, Cors.handlePreflight, hm, hoe,
      hq, hl]
    simp [hor, hrq, horigin, hmeth, hhead, hv1, hv2, hv3, hv4, hemp, h300,
      ResponseWriter.mapHeader, ResponseWriter.WriteHeader, ResponseWriter.fresh, StatusOK,
      Header.Set, Header.Add, Header.Del, List.lookup]
    simp [Header.Get, List.lookup]
  · have hnil : reqHeaders = [] := by simpa using hemp
    subst hnil
    simp only [installedCors, cors_New_corsOptions, Cors.Handler, Cors.handlePreflight, hm, hoe,
      hq, hl]
    simp [hor, hrq, horigin, hmeth, hhead, hv1, hv2, hv3, hv4, h300,
      ResponseWriter.mapHeader, ResponseWriter.WriteHeader, ResponseWriter.fresh, StatusOK,
      Header.Set, Header.Add, Header.Del, List.lookup]
    simp [Header.Get, List.lookup, strings.Join]
    rfl

/-! ## The router at work -/

/-- The chain the router of `NewRouter` runs, for any request. -/
theorem loadedRouter_chain (swagger : Swagger) (restSrv : Server) (method path : String) :
    ((loadedRouter swagger restSrv).dispatch method path).chain =
      [.cors corsOptions, .telemetry { AllowAny := true } []] := by
  unfold Mux.dispatch
  cases h : (loadedRouter swagger restSrv).findRoute method path with
  | none => rfl
  | some rt =>
    have hin : rt ∈ (loadedRouter swagger restSrv).routes := by
      unfold Mux.findRoute at h
      split at h
      · cases h
      · split at h
        · rename_i r0 h0
          cases h
          exact List.mem_reverse.mp (List.mem_of_find?_eq_some h0)
        · exact List.mem_reverse.mp (List.mem_of_find?_eq_some h)
    simp [loadedRouter] at hin
    rcases hin with h1 | h1 | h1 <;> subst h1 <;> rfl

/-- The endpoint the tree of the router of `NewRouter` yields, case by case. -/
theorem loadedRouter_endpoint (swagger : Swagger) (restSrv : Server) (method path : String) :
    ((loadedRouter swagger restSrv).dispatch method path).endpoint =
      if method ∈ chi.methodMap then
        if path = "/docs" then
          some (.docsUI "Template project Backend API" "/openapi/schema.json" "/api/openapi/")
        else if method = "GET" ∧ path = "/openapi/schema.json" then some (.schema swagger)
        else if "/".toList.isPrefixOf path.toList then some (.generated restSrv)
        else none
      else none := by
  by_cases hm : method ∈ chi.methodMap
  · have hm2 : chi.methodMap.contains method = true := by simpa using hm
    by_cases h1 : path = "/docs"
    · subst h1
      simp [Mux.dispatch, Mux.findRoute, loadedRouter, hm2, hm,
        List.find?, Route.matchesStatic, Route.matchesCatchAll, Route.isCatchAll, Methods.allows]
    · have h1b : ("/docs" == path) = false := by
        simpa using fun h => h1 h.symm
      by_cases h2 : method = "GET" ∧ path = "/openapi/schema.json"
      · obtain ⟨h2a, h2b⟩ := h2
        subst h2a h2b
        have hget : "GET" ∈ chi.methodMap := by decide
        simp [Mux.dispatch, Mux.findRoute, loadedRouter,
          List.find?, Route.matchesStatic, Route.matchesCatchAll, Route.isCatchAll,
          Methods.allows, hget]
      · have h2b : ("GET" == method && "/openapi/schema.json" == path) = false := by
          cases h : ("GET" == method && "/openapi/schema.json" == path)
          · rfl
          · exfalso
            simp at h
            exact h2 ⟨h.1.symm, h.2.symm⟩
        have h3 : ∀ b : Bool, ['/'].isPrefixOf path.data = b →
            ((loadedRouter swagger restSrv).dispatch method path).endpoint =
              if b = true then some (.generated restSrv) else none := by
          intro b hb
          simp only [Mux.dispatch, Mux.findRoute, loadedRouter, hm2,
            List.find?, Route.matchesStatic, Route.matchesCatchAll, Route.isCatchAll,
            Methods.allows, h1b, h2b, List.reverse_cons, List.reverse_nil, List.nil_append,
            List.cons_append, Bool.true_and, Bool.not_true, Bool.false_and, Bool.not_false,
            Bool.and_false, Bool.false_eq_true, if_false]
          simp [hb]
          cases b <;> rw [h2b] <;> simp
        rw [h3 _ rfl]
        simp [hm, h1, h2]
  · have hm2 : chi.methodMap.contains method = false := by simpa using hm
    simp [Mux.dispatch, Mux.findRoute, hm2, hm]

/-- Who answers a request sent to the router of `NewRouter`: the CORS
middleware if it answers itself, else the telemetry middleware if it answers
itself, else the endpoint of the tree. -/
theorem servedBy_ok (swagger : Swagger) (restSrv : Server) (r : Request) :
    servedBy (.ok swagger) restSrv r = some
      (if (cors.New corsOptions).answersItself r = true then
        .byMiddleware (.cors corsOptions)
      else if (r.method == "GET" && strings.EqualFold r.path "/metrics") = true then
        .byMiddleware (.telemetry { AllowAny := true } [])
      else
        match ((loadedRouter swagger restSrv).dispatch r.method r.path).endpoint with
        | some h => .byEndpoint h
        | none => .byNobody) := by
  simp only [servedBy, NewRouter_ok, Mux.ServeHTTP, loadedRouter_chain]
  by_cases h1 : (cors.New corsOptions).answersItself r = true
  · simp [List.find?, Middleware.answers, h1]
  · by_cases h2 : (r.method == "GET" && strings.EqualFold r.path "/metrics") = true
    · simp only [List.find?, Middleware.answers, h1, h2, if_true, if_false]
      simp [h1]
    · simp only [List.find?, Middleware.answers, h1, h2, if_false]
      simp [h1, h2]

/-! ## The CORS policy installed by `NewRouter` -/

theorem installed_isOriginAllowed_iff (origin : String) :
    (cors.New corsOptions).isOriginAllowed origin = true ↔
      ("https://".toList.isPrefixOf (strings.ToLower origin).toList = true
        ∨ "http://".toList.isPrefixOf (strings.ToLower origin).toList = true) := by
  rw [cors_New_corsOptions]
  constructor
  · intro h
    simp only [Cors.isOriginAllowed, installedCorsValue, Wildcard.matches, List.any_cons,
      List.any_nil, Bool.or_false, List.contains_nil, Bool.false_or, Bool.false_eq_true,
      if_false, Bool.or_eq_true, Bool.and_eq_true] at h
    rcases h with h | h
    · exact Or.inl h.1.2
    · exact Or.inr h.1.2
  · exact installed_isOriginAllowed origin

theorem installed_isMethodAllowed_iff (method : String) :
    (cors.New corsOptions).isMethodAllowed method = true ↔
      strings.ToUpper method ∈ ["GET", "POST", "PUT", "DELETE", "OPTIONS"] := by
  rw [cors_New_corsOptions]
  simp only [Cors.isMethodAllowed, installedCorsValue]
  by_cases h : strings.ToUpper method = "OPTIONS"
  · simp [h]
  · simp [h]

theorem installed_areHeadersAllowed_iff (requestedHeaders : List String) :
    (cors.New corsOptions).areHeadersAllowed requestedHeaders = true ↔
      ∀ h ∈ requestedHeaders, http.CanonicalHeaderKey h ∈
        (corsOptions.AllowedHeaders ++ ["Origin"]).map http.CanonicalHeaderKey := by
  have hmap : (corsOptions.AllowedHeaders ++ ["Origin"]).map http.CanonicalHeaderKey
      = ["Accept", "Authorization", "Content-Type", "X-Csrf-Token", "Origin"] := by decide
  rw [cors_New_corsOptions, hmap]
  simp only [Cors.areHeadersAllowed, installedCorsValue]
  cases requestedHeaders with
  | nil => simp
  | cons a rest =>
    simp only [Bool.false_or, List.isEmpty_cons, Bool.false_eq_true, if_false, List.all_eq_true,
      List.contains_eq_any_beq, List.any_eq_true, beq_iff_eq]
    constructor
    · intro h x hx
      obtain ⟨y, hy, hxy⟩ := h x hx
      exact hxy ▸ hy
    · intro h x hx
      exact ⟨_, h x hx, rfl⟩

/-- A preflight is answered by the CORS handler alone, whatever `next` is;
any other request goes on to `next`. -/
theorem Cors.Handler_answersItself (c : Cors) (parseHeaderList : String → List String)
    (next : ResponseWriter → Request → ResponseWriter) (w : ResponseWriter) (r : Request) :
    c.Handler parseHeaderList next w r =
      if c.answersItself r = true then (c.handlePreflight parseHeaderList w r).WriteHeader StatusOK
      else if (r.method == "OPTIONS"
          && Header.Get r.header "Access-Control-Request-Method" != "") = true then
        next (c.handlePreflight parseHeaderList w r) r
      else next (c.handleActualRequest w r) r := by
  unfold Cors.Handler Cors.answersItself
  by_cases h1 : (r.method == "OPTIONS"
      && Header.Get r.header "Access-Control-Request-Method" != "") = true
  · cases h2 : c.optionPassthrough <;> simp [h1, h2]
  · simp [h1]

/-- C8, the claim as stated fails: the policy installed allows a request
header that is not among the four configured ones.  `cors.New` appends
`Origin` to the allowed headers, so a preflight that asks for the header
`Origin` is granted it. -/
theorem C8_origin_header_counterexample :
    "Origin" ∉ corsOptions.AllowedHeaders
    ∧ (installedPolicy (.ok ⟨"", none⟩) {}).map (fun c => c.areHeadersAllowed ["Origin"])
        = some true
    ∧ Header.Get (installedCors (fun s => [s]) (fun w _ => w) ResponseWriter.fresh
        ⟨"OPTIONS", "/", "",
          [("Origin", ["https://app.example.com"]), ("Access-Control-Request-Method", ["GET"]),
            ("Access-Control-Request-Headers", ["Origin"])], ""⟩).sentHeader
        "Access-Control-Allow-Headers" = "Origin" := by
  decide

/-- C8, amended: the options `NewRouter` passes to `cors.Handler` are exactly:
origins `https://*` and `http://*`; methods GET, POST, PUT, DELETE, OPTIONS;
headers Accept, Authorization, Content-Type, X-CSRF-Token; exposed header
Link; no credentials; max age 300.  The policy `cors.New` builds from them,
which is the policy of the first middleware of the router, allows an origin
exactly when, in lower case, it begins with `https://` or `http://`; allows
a method exactly when, in upper case, it is one of the five; allows request
headers exactly when each, in canonical form, is one of the four configured
headers or `Origin`, which the library adds; exposes Link; does not allow
credentials; has max age 300.  `Use` of the CORS middleware is the first call
on the new router, before every registration of a route; the chain the
router runs for any request (any method, any path, whether a route matches
or not) begins with that middleware, and every preflight request is answered
by it, whatever the path. -/
theorem C8_cors_policy_installed (swagger : Swagger) (restSrv : Server) :
    ∃ r : Mux, (NewRouter (.ok swagger) restSrv).outcome = .returned r
      ∧ r.middlewares.head? = some (.cors
          { AllowedOrigins := ["https://*", "http://*"],
            AllowedMethods := ["GET", "POST", "PUT", "DELETE", "OPTIONS"],
            AllowedHeaders := ["Accept", "Authorization", "Content-Type", "X-CSRF-Token"],
            ExposedHeaders := ["Link"],
            AllowCredentials := false,
            MaxAge := 300 })
      ∧ installedPolicy (.ok swagger) restSrv = some (cors.New corsOptions)
      ∧ (∀ origin : String, (cors.New corsOptions).isOriginAllowed origin = true ↔
          ("https://".toList.isPrefixOf (strings.ToLower origin).toList = true
            ∨ "http://".toList.isPrefixOf (strings.ToLower origin).toList = true))
      ∧ (∀ method : String, (cors.New corsOptions).isMethodAllowed method = true ↔
          strings.ToUpper method ∈ ["GET", "POST", "PUT", "DELETE", "OPTIONS"])
      ∧ (∀ requestedHeaders : List String,
          (cors.New corsOptions).areHeadersAllowed requestedHeaders = true ↔
            ∀ h ∈ requestedHeaders, http.CanonicalHeaderKey h ∈
              (["Accept", "Authorization", "Content-Type", "X-CSRF-Token"] ++ ["Origin"]).map
                http.CanonicalHeaderKey)
      ∧ (cors.New corsOptions).exposedHeaders = ["Link"]
      ∧ (cors.New corsOptions).allowCredentials = false
      ∧ (cors.New corsOptions).maxAge = 300
      ∧ (NewRouter (.ok swagger) restSrv).trace.take 2 = [.newRouter, .use (.cors corsOptions)]
      ∧ (∀ rt : Route, Effect.register rt ∉ (NewRouter (.ok swagger) restSrv).trace.take 2)
      ∧ (∀ rt ∈ r.routes, Effect.register rt ∈ (NewRouter (.ok swagger) restSrv).trace.drop 2)
      ∧ (∀ method path : String,
          (r.dispatch method path).chain =
            [.cors corsOptions, .telemetry { AllowAny := true } []])
      ∧ (∀ req : Request, req.method = "OPTIONS" →
          Header.Get req.header "Access-Control-Request-Method" ≠ "" →
          r.ServeHTTP req = .byMiddleware (.cors corsOptions)) := by
  refine ⟨_, NewRouter_ok swagger restSrv, rfl, ?_, installed_isOriginAllowed_iff,
    installed_isMethodAllowed_iff, installed_areHeadersAllowed_iff, ?_, ?_, ?_, ?_, ?_, ?_,
    loadedRouter_chain swagger restSrv, ?_⟩
  · simp [installedPolicy, NewRouter_ok, loadedRouter, Middleware.policy]
  · rw [cors_New_corsOptions]; rfl
  · rw [cors_New_corsOptions]; rfl
  · rw [cors_New_corsOptions]; rfl
  · rw [NewRouter_ok_trace]; rfl
  · intro rt
    rw [NewRouter_ok_trace]
    simp
  · intro rt hrt
    rw [NewRouter_ok_trace]
    simp [loadedRouter] at hrt
    rcases hrt with h | h | h <;> subst h <;> simp
  · intro req hm hrm
    have hans : (cors.New corsOptions).answersItself req = true := by
      rw [cors_New_corsOptions]
      simp [Cors.answersItself, installedCorsValue, hm, hrm]
    have := servedBy_ok swagger restSrv req
    simp only [servedBy, NewRouter_ok, hans, if_true, Option.some.injEq] at this
    exact this

/-- C10, the claim as stated fails: `GET /docs/index.html`, a sub-path under
`/docs`, is handed on by both middlewares and dispatched to the generated
bindings mounted at the root path, not to the documentation UI handler. -/
theorem C10_docs_subpath_counterexample :
    servedBy (.ok ⟨"", none⟩) {} ⟨"GET", "/docs/index.html", "", [], ""⟩
      = some (.byEndpoint (.generated {}))
    ∧ servedBy (.ok ⟨"", none⟩) {} ⟨"GET", "/docs/index.html", "", [], ""⟩
      ≠ some (.byEndpoint
          (.docsUI "Template project Backend API" "/openapi/schema.json" "/api/openapi/")) := by
  decide

/-- A path that continues `/docs/` is not the metrics path. -/
theorem not_metrics_of_docs_subpath (path : String)
    (hp : "/docs/".toList.isPrefixOf path.toList = true) :
    strings.EqualFold path "/metrics" = false := by
  obtain ⟨t, ht⟩ := List.isPrefixOf_iff_prefix.mp hp
  have hpath : path = ⟨"/docs/".toList ++ t⟩ := by
    cases path
    simp only [String.toList] at ht
    simp [ht]
  subst hpath
  simp only [strings.EqualFold, strings.ToLower, beq_eq_false_iff_ne, ne_eq]
  intro h
  have h2 := congrArg String.data h
  have h3 : ("/docs/".toList ++ t).map Char.toLower
      = '/' :: 'd' :: 'o' :: 'c' :: 's' :: '/' :: t.map Char.toLower := by
    simp
  have h4 : ("/metrics".toList).map Char.toLower = ['/', 'm', 'e', 't', 'r', 'i', 'c', 's'] := by
    decide
  simp only [String.toList] at h3 h4
  simp only [h3, h4] at h2
  simp at h2

/-- C10, amended: every `GET` request, whatever its headers, query and body,
is dispatched by the router built in `NewRouter`, middlewares included, to
the documentation UI handler exactly when its path is `/docs`; that handler
is configured with the schema path `/openapi/schema.json`, the path on which
a `GET` reaches the schema handler; a `GET` for `/docs` is not dispatched to
the generated bindings mounted at the root path.  A `GET` for a path that
continues `/docs/` is not dispatched to the UI handler: it is dispatched to
the generated bindings. -/
theorem C10_docs_dispatch (swagger : Swagger) (restSrv : Server) (r : Request)
    (hm : r.method = "GET") :
    (servedBy (.ok swagger) restSrv r
        = some (.byEndpoint
            (.docsUI "Template project Backend API" "/openapi/schema.json" "/api/openapi/"))
      ↔ r.path = "/docs")
    ∧ (r.path = "/docs" →
        servedBy (.ok swagger) restSrv r ≠ some (.byEndpoint (.generated restSrv)))
    ∧ (r.path = "/openapi/schema.json" →
        servedBy (.ok swagger) restSrv r = some (.byEndpoint (.schema swagger)))
    ∧ ("/docs/".toList.isPrefixOf r.path.toList = true →
        servedBy (.ok swagger) restSrv r = some (.byEndpoint (.generated restSrv))) := by
  have hcors : (cors.New corsOptions).answersItself r = false := by
    simp [Cors.answersItself, hm]
  have hget : "GET" ∈ chi.methodMap := by decide
  have hmd : strings.EqualFold "/docs" "/metrics" = false := by decide
  have hms : strings.EqualFold "/openapi/schema.json" "/metrics" = false := by decide
  have hserved := servedBy_ok swagger restSrv r
  rw [loadedRouter_endpoint] at hserved
  simp only [hcors, hm, Bool.false_eq_true, if_false, hget, if_true, beq_self_eq_true,
    Bool.true_and, true_and] at hserved
  rw [hserved]
  refine ⟨?_, ?_, ?_, ?_⟩
  · constructor
    · intro h
      by_contra hne
      by_cases h1 : strings.EqualFold r.path "/metrics" = true
      · simp [h1] at h
      · by_cases h2 : r.path = "/openapi/schema.json"
        · simp [h2, hms] at h
        · by_cases h3 : "/".toList.isPrefixOf r.path.toList = true
          · simp only [h1, hne, h2, h3, if_false, if_true, Option.some.injEq] at h
            cases h
          · simp only [h1, hne, h2, h3, if_false, Option.some.injEq] at h
            cases h
    · intro hp
      simp [hp, hmd]
  · intro hp
    simp [hp, hmd]
  · intro hp
    have hne : ("/openapi/schema.json" : String) ≠ "/docs" := by decide
    simp [hp, hms, hne]
  · intro hp
    have hnm := not_metrics_of_docs_subpath r.path hp
    have h1 : r.path ≠ "/docs" := by
      intro h; rw [h] at hp; revert hp; decide
    have h2 : r.path ≠ "/openapi/schema.json" := by
      intro h; rw [h] at hp; revert hp; decide
    have h3 : "/".toList.isPrefixOf r.path.toList = true := by
      cases hd : r.path.toList with
      | nil => rw [hd] at hp; revert hp; decide
      | cons c cs =>
        rw [hd] at hp
        have hboth : ('/' == c && ['d', 'o', 'c', 's', '/'].isPrefixOf cs) = true := hp
        have hc : '/' = c := by
          have hbeq : ('/' == c) = true := (Bool.and_eq_true _ _ ▸ hboth).1
          exact eq_of_beq hbeq
        subst hc
        simp [List.isPrefixOf]
    have h3b : ['/'] <+: r.path.data := by
      simpa using h3
    simp [hnm, h1, h2, h3b]

/-- C10 (amended) at a `GET` for `/docs` with a query and an `Accept` header. -/
theorem C10_docs_dispatch_witness :
    servedBy (.ok ⟨"", none⟩) {} ⟨"GET", "/docs", "lang=en", [("Accept", ["text/html"])], ""⟩
      = some (.byEndpoint
          (.docsUI "Template project Backend API" "/openapi/schema.json" "/api/openapi/")) :=
  (C10_docs_dispatch ⟨"", none⟩ {}
    ⟨"GET", "/docs", "lang=en", [("Accept", ["text/html"])], ""⟩ rfl).1.mpr rfl

/-! ## `main` -/

theorem listenerInv_sent_length {s : State} (h : listenerInv s) : s.sent.length ≤ 1 := by
  unfold listenerInv at h
  split at h
  · exact h.elim
  · simp [h.2.1]
  · simp [h.2.1]
  · obtain ⟨e, _, h2, _⟩ := h
    cases e <;> simp [h2]
  · obtain ⟨e, _, h2, _⟩ := h
    cases e <;> simp [h2]

theorem main.step_inv {s s1 : State} {a : Action} (h : main.step s a = some s1) (hi : Inv s) :
    Inv s1 := by
  obtain ⟨hcap, hl, hm⟩ := hi
  have hlen := listenerInv_sent_length hl
  unfold main.step at h
  split at h
  · cases h
  rename_i hne
  unfold Inv
  unfold mainInv listenerInv at *
  cases a with
  | interrupt =>
    cases h
    cases hmm : s.main <;> cases hll : s.listener <;> simp_all [MainPc.isEnded] <;> aesop
  | bind =>
    simp only at h
    split at h
    · cases h
      cases hmm : s.main <;> cases hll : s.listener <;> simp_all [MainPc.isEnded]
    · cases h
  | listenReturn err =>
    simp only at h
    split at h
    · cases h
      cases hmm : s.main <;> cases hll : s.listener <;> simp_all [MainPc.isEnded] <;> aesop
    · cases h
  | accept work =>
    simp only at h
    split at h
    · cases h
      cases hmm : s.main <;> cases hll : s.listener <;> simp_all [MainPc.isEnded]
    · cases h
  | tick d =>
    simp only at h
    split at h
    · split at h
      · cases h
        rename_i dl hmm hc
        cases hll : s.listener <;> simp_all [MainPc.isEnded] <;>
          (obtain ⟨t, ht⟩ := hm
           exact ⟨t, ht.1, ht.2.1, by omega, ht.2.2.2.2.1, ht.2.2.2.2.2.1, ht.2.2.2.2.2.2⟩)
      · cases h
    · cases h
      cases hmm : s.main <;> cases hll : s.listener <;> simp_all [MainPc.isEnded]
  | listenerIf =>
    simp only at h
    split at h
    · split at h
      · cases h
        cases hmm : s.main <;> simp_all [MainPc.isEnded]
      · cases h
    · cases h
      cases hmm : s.main <;> simp_all [MainPc.isEnded]
    · cases h
  | listenerClose =>
    simp only at h
    split at h
    · cases h
      cases hmm : s.main <;> cases hll : s.listener <;> simp_all [MainPc.isEnded] <;> aesop
    · cases h
  | mainRecv =>
    simp only at h
    split at h
    · cases h
      rename_i err rest hmm hbuf
      cases hll : s.listener <;> simp_all [MainPc.isEnded] <;>
        (have h2 := hm.2
         rw [← h2] at hlen ⊢
         have hr : rest = [] := by
           cases rest with
           | nil => rfl
           | cons y ys => simp at hlen
         simp [hr])
    · split at h
      · cases h
        cases hll : s.listener <;> simp_all [MainPc.isEnded]
      · cases h
    · cases h
  | mainCtxDone =>
    simp only at h
    split at h
    · cases h
      cases hmm : s.main <;> cases hll : s.listener <;> simp_all [MainPc.isEnded]
    · cases h
  | shutdownReturn err =>
    simp only at h
    split at h
    · split at h
      · cases h
        rename_i dl hmm hc
        cases hll : s.listener <;> simp_all [MainPc.isEnded] <;>
          (obtain ⟨t, ht⟩ := hm
           refine ⟨t, ht.1, ht.2.2.1, by omega, ht.2.2.2.2.1, ht.2.2.2.2.2.1, ?_,
             ht.2.2.2.2.2.2⟩
           rcases hc with hc | hc
           · exact Or.inl hc
           · exact Or.inr (by omega))
      · cases h
    · cases h

theorem main.start_ok (swagger : Swagger) (t0 : Nat) :
    main.start (.ok swagger) t0 =
      { now := t0, stdout := "Server is starting at 8080\n", stderr := "", addr := ":8080",
        handler := some (loadedRouter swagger rest.NewServer), ctxDone := false,
        ch := { cap := 1, buf := [], closed := false }, listener := .listening,
        main := .select, accepting := false, inflight := [], completed := 0,
        shutdownCalls := [], sent := [], listenErr := none } := by
  rfl

theorem main.start_inv (swagger : Swagger) (t0 : Nat) : Inv (main.start (.ok swagger) t0) := by
  rw [main.start_ok]
  simp [Inv, listenerInv, mainInv]

theorem main.run_inv {acts : List Action} {s s1 : State} (h : main.run acts s = some s1)
    (hi : Inv s) : Inv s1 := by
  induction acts generalizing s with
  | nil =>
    simp only [main.run, Option.some.injEq] at h
    exact h ▸ hi
  | cons a rest ih =>
    simp only [main.run] at h
    split at h
    · rename_i s2 hs
      exact ih h (main.step_inv hs hi)
    · cases h

theorem Reachable.inv {swagger : Swagger} {t0 : Nat} {s : State}
    (h : Reachable (.ok swagger) t0 s) : Inv s := by
  obtain ⟨acts, hacts⟩ := h
  exact main.run_inv hacts (main.start_inv swagger t0)

/-- What holds in a reachable state once `srv.ListenAndServe()` has returned
the error `e`. -/
theorem listenErr_facts (swagger : Swagger) (t0 : Nat) (s : State) (e : GoError)
    (hr : Reachable (.ok swagger) t0 s) (he : s.listenErr = some (some e)) :
    (s.ch.cap = 1 ∧ s.sent.length ≤ 1 ∧ s.ch.buf.length ≤ 1
      ∧ (∀ x ∈ s.sent, x = startError e)
      ∧ (s.ch.closed = true → s.listener = .finished))
    ∧ (∀ v, s.main = .ended (.panicked v) →
        v = .error (some (startError e)) ∧ s.shutdownCalls = [])
    ∧ (startError e).Unwrap = some e
    ∧ (s.ctxDone = false →
        s.shutdownCalls = []
        ∧ (s.main = .select ∨ s.main = .ended (.panicked (.error (some (startError e))))))
    ∧ (s.main = .select →
        ∃ acts s1, (∀ a ∈ acts, a.isProgram = true) ∧ main.run acts s = some s1
          ∧ s1.main = .ended (.panicked (.error (some (startError e))))
          ∧ s1.shutdownCalls = [] ∧ s1.exitCode = some 2) := by
  obtain ⟨hcap, hl, hm⟩ := hr.inv
  have hlen := listenerInv_sent_length hl
  have hsent : ∀ x ∈ s.sent, x = startError e := by
    unfold listenerInv at hl
    split at hl
    · exact hl.elim
    · simp [hl.2.1]
    · simp [hl.2.1]
    · obtain ⟨e1, h1, h2, _⟩ := hl
      rw [he] at h1
      cases h1
      simp [h2]
    · obtain ⟨e1, h1, h2, _⟩ := hl
      rw [he] at h1
      cases h1
      simp [h2]
  have hclosed : s.ch.closed = true → s.listener = .finished := by
    intro hc
    unfold listenerInv at hl
    split at hl
    · exact hl.elim
    · simp [hc] at hl
    · simp [hc] at hl
    · obtain ⟨e1, _, _, h3⟩ := hl
      simp [hc] at h3
    · assumption
  have hfin : s.listener = .finished → s.sent = [startError e] := by
    intro hf
    unfold listenerInv at hl
    rw [hf] at hl
    obtain ⟨e1, h1, h2, _⟩ := hl
    rw [he] at h1
    cases h1
    simpa using h2
  have hpanic : ∀ v, s.main = .ended (.panicked v) →
      v = .error (some (startError e)) ∧ s.shutdownCalls = [] := by
    intro v hv
    unfold mainInv at hm
    rw [hv] at hm
    obtain ⟨h1, _, h3⟩ := hm
    refine ⟨?_, h1⟩
    rcases h3 with ⟨x, hx, hsx⟩ | ⟨_, hs0, hc⟩
    · have := hsent x (by simp [hsx])
      rw [hx, this]
    · have := hfin (hclosed hc)
      rw [hs0] at this
      cases this
  have hbuf : s.ch.buf.length ≤ 1 := by
    unfold mainInv at hm
    split at hm
    · rw [hm.2]; exact hlen
    · obtain ⟨t, ht⟩ := hm
      rw [ht.2.2.2.2.2.2]; exact hlen
    · obtain ⟨t, ht⟩ := hm
      rw [ht.2.2.2.2.2.2]; exact hlen
    · simp [hm.2.1]
    · exact hm.elim
  refine ⟨⟨hcap, hlen, hbuf, hsent, hclosed⟩, hpanic, rfl, ?_, ?_⟩
  · intro hctx
    unfold mainInv at hm
    cases hmm : s.main with
    | select =>
      rw [hmm] at hm
      exact ⟨hm.1, Or.inl rfl⟩
    | shutdown dl =>
      rw [hmm] at hm
      obtain ⟨t, ht⟩ := hm
      simp [hctx] at ht
    | ended o =>
      cases o with
      | returned u =>
        rw [hmm] at hm
        obtain ⟨t, ht⟩ := hm
        simp [hctx] at ht
      | exited c =>
        rw [hmm] at hm
        exact hm.elim
      | panicked v =>
        obtain ⟨h1, h2⟩ := hpanic v hmm
        exact ⟨h2, Or.inr (by rw [h1])⟩
  · intro hsel
    unfold mainInv at hm
    rw [hsel] at hm
    obtain ⟨hcalls, hbs⟩ := hm
    have hne : s.main.isEnded = false := by rw [hsel]; rfl
    unfold listenerInv at hl
    cases hll : s.listener with
    | notStarted => simp [hll] at hl
    | listening => simp [hll, he] at hl
    | returned e1 =>
      simp only [hll, he, Option.some.injEq] at hl
      obtain ⟨h1, h2, h3⟩ := hl
      subst h1
      have hb : s.ch.buf = [] := by rw [hbs, h2]
      refine ⟨[.listenerIf, .mainRecv],
        { s with ch := { s.ch with buf := [] }, sent := s.sent ++ [startError e],
                 listener := .closing,
                 main := .ended (.panicked (.error (some (startError e)))) }, ?_, ?_, rfl,
        hcalls, rfl⟩
      · intro a ha
        simp at ha
        rcases ha with h | h <;> subst h <;> rfl
      · simp [main.run, main.step, hne, hll, hb, hcap, hsel, MainPc.isEnded]
    | closing =>
      simp only [hll, he, Option.some.injEq] at hl
      obtain ⟨e1, h1, h2, h3⟩ := hl
      subst h1
      have hb : s.ch.buf = [startError e] := by rw [hbs, h2]; rfl
      refine ⟨[.mainRecv],
        { s with ch := { s.ch with buf := [] },
                 main := .ended (.panicked (.error (some (startError e)))) }, ?_, ?_, rfl,
        hcalls, rfl⟩
      · intro a ha
        simp at ha
        subst ha
        rfl
      · simp [main.run, main.step, hne, hb, hsel, MainPc.isEnded]
    | finished =>
      simp only [hll, he, Option.some.injEq] at hl
      obtain ⟨e1, h1, h2, h3⟩ := hl
      subst h1
      have hb : s.ch.buf = [startError e] := by rw [hbs, h2]; rfl
      refine ⟨[.mainRecv],
        { s with ch := { s.ch with buf := [] },
                 main := .ended (.panicked (.error (some (startError e)))) }, ?_, ?_, rfl,
        hcalls, rfl⟩
      · intro a ha
        simp at ha
        subst ha
        rfl
      · simp [main.run, main.step, hne, hb, hsel, MainPc.isEnded]

theorem main.run_append (a1 a2 : List Action) (s : State) :
    main.run (a1 ++ a2) s = (main.run a1 s).bind (main.run a2) := by
  induction a1 generalizing s with
  | nil => rfl
  | cons a rest ih =>
    simp only [List.cons_append, main.run]
    cases main.step s a with
    | none => rfl
    | some s1 => exact ih s1

theorem Reachable.run {GetSwagger : Except GoError Swagger} {t0 : Nat} {s s1 : State}
    {acts : List Action} (hr : Reachable GetSwagger t0 s) (h : main.run acts s = some s1) :
    Reachable GetSwagger t0 s1 := by
  obtain ⟨a0, h0⟩ := hr
  exact ⟨a0 ++ acts, by rw [main.run_append, h0]; exact h⟩

/-- A step keeps the record of what `srv.ListenAndServe()` returned: the call
returns once. -/
theorem main.step_listenErr {s s1 : State} {a : Action} {x : Option GoError}
    (h : main.step s a = some s1) (hi : Inv s) (hx : s.listenErr = some x) :
    s1.listenErr = some x := by
  obtain ⟨_, hl, _⟩ := hi
  unfold main.step at h
  split at h
  · cases h
  cases a with
  | listenReturn err =>
    simp only at h
    split at h
    · rename_i hlis
      unfold listenerInv at hl
      rw [hlis] at hl
      simp [hx] at hl
    · cases h
  | tick d =>
    simp only at h
    split at h
    · split at h
      · cases h; exact hx
      · cases h
    · cases h; exact hx
  | listenerIf =>
    simp only at h
    split at h
    · split at h
      · cases h; exact hx
      · cases h
    · cases h; exact hx
    · cases h
  | mainRecv =>
    simp only at h
    split at h
    · cases h; exact hx
    · split at h
      · cases h; exact hx
      · cases h
    · cases h
  | shutdownReturn err =>
    simp only at h
    split at h
    · split at h
      · cases h; exact hx
      · cases h
    · cases h
  | interrupt => cases h; exact hx
  | bind =>
    simp only at h
    split at h
    · cases h; exact hx
    · cases h
  | accept work =>
    simp only at h
    split at h
    · cases h; exact hx
    · cases h
  | listenerClose =>
    simp only at h
    split at h
    · cases h; exact hx
    · cases h
  | mainCtxDone =>
    simp only at h
    split at h
    · cases h; exact hx
    · cases h

/-- Only the interrupt closes `ctx.Done()`. -/
theorem main.step_ctxDone {s s1 : State} {a : Action}
    (h : main.step s a = some s1) (ha : a ≠ .interrupt) : s1.ctxDone = s.ctxDone := by
  unfold main.step at h
  split at h
  · cases h
  cases a with
  | interrupt => exact (ha rfl).elim
  | listenReturn err =>
    simp only at h
    split at h
    · cases h; rfl
    · cases h
  | tick d =>
    simp only at h
    split at h
    · split at h
      · cases h; rfl
      · cases h
    · cases h; rfl
  | listenerIf =>
    simp only at h
    split at h
    · split at h
      · cases h; rfl
      · cases h
    · cases h; rfl
    · cases h
  | mainRecv =>
    simp only at h
    split at h
    · cases h; rfl
    · split at h
      · cases h; rfl
      · cases h
    · cases h
  | shutdownReturn err =>
    simp only at h
    split at h
    · split at h
      · cases h; rfl
      · cases h
    · cases h
  | bind =>
    simp only at h
    split at h
    · cases h; rfl
    · cases h
  | accept work =>
    simp only at h
    split at h
    · cases h; rfl
    · cases h
  | listenerClose =>
    simp only at h
    split at h
    · cases h; rfl
    · cases h
  | mainCtxDone =>
    simp only at h
    split at h
    · cases h; rfl
    · cases h

theorem main.run_keeps {acts : List Action} {s s1 : State} {x : Option GoError}
    (h : main.run acts s = some s1) (hi : Inv s) (hx : s.listenErr = some x)
    (hno : Action.interrupt ∉ acts) :
    s1.listenErr = some x ∧ s1.ctxDone = s.ctxDone := by
  induction acts generalizing s with
  | nil =>
    simp only [main.run, Option.some.injEq] at h
    subst h
    exact ⟨hx, rfl⟩
  | cons a rest ih =>
    simp only [main.run] at h
    split at h
    · rename_i s2 hs
      have ha : a ≠ .interrupt := fun hc => hno (by simp [hc])
      have hrest : Action.interrupt ∉ rest := fun hc => hno (by simp [hc])
      have := ih h (main.step_inv hs hi) (main.step_listenErr hs hi hx) hrest
      exact ⟨this.1, by rw [this.2, main.step_ctxDone hs ha]⟩
    · cases h

/-- After `srv.ListenAndServe()` has returned the error `e` and while no
interrupt has arrived: whatever happens next short of an interrupt,
`srv.Shutdown` is not called, `main` waits in the `select` or has panicked
with the wrapping error, it has panicked once no statement of the program
can run, and statements of the program alone lead it to the panic. -/
theorem listenErr_progress (swagger : Swagger) (t0 : Nat) (s : State) (e : GoError)
    (hr : Reachable (.ok swagger) t0 s) (he : s.listenErr = some (some e))
    (hctx : s.ctxDone = false) (acts : List Action) (s1 : State)
    (hno : Action.interrupt ∉ acts) (hrun : main.run acts s = some s1) :
    s1.shutdownCalls = []
    ∧ (s1.main = .select ∨ s1.main = .ended (.panicked (.error (some (startError e)))))
    ∧ ((∀ a, a.isProgram = true → main.step s1 a = none) →
        s1.main = .ended (.panicked (.error (some (startError e))))
        ∧ s1.exitCode = some 2)
    ∧ (∃ more s2, (∀ a ∈ more, a.isProgram = true) ∧ main.run more s1 = some s2
        ∧ s2.main = .ended (.panicked (.error (some (startError e))))
        ∧ s2.shutdownCalls = [] ∧ s2.exitCode = some 2) := by
  have hr1 : Reachable (.ok swagger) t0 s1 := hr.run hrun
  obtain ⟨he1, hc1⟩ := main.run_keeps hrun hr.inv he hno
  rw [hctx] at hc1
  obtain ⟨_, hp, _, h4, h5⟩ := listenErr_facts swagger t0 s1 e hr1 he1
  obtain ⟨hcalls, hmain⟩ := h4 hc1
  have hprog : s1.main = .select →
      ∃ more s2, (∀ a ∈ more, a.isProgram = true) ∧ main.run more s1 = some s2
        ∧ s2.main = .ended (.panicked (.error (some (startError e))))
        ∧ s2.shutdownCalls = [] ∧ s2.exitCode = some 2 := h5
  refine ⟨hcalls, hmain, ?_, ?_⟩
  · intro hstuck
    rcases hmain with hsel | hpan
    · obtain ⟨more, s2, hall, hrun2, hend, _, _⟩ := hprog hsel
      cases more with
      | nil =>
        simp only [main.run, Option.some.injEq] at hrun2
        subst hrun2
        rw [hsel] at hend
        cases hend
      | cons a rest =>
        have ha := hstuck a (hall a (by simp))
        simp [main.run, ha] at hrun2
    · exact ⟨hpan, by simp [State.exitCode, hpan, Outcome.exitCode]⟩
  · rcases hmain with hsel | hpan
    · exact hprog hsel
    · exact ⟨[], s1, by simp, rfl, hpan, hcalls, by simp [State.exitCode, hpan, Outcome.exitCode]⟩

/-- C5: in every state `main` can reach after `srv.ListenAndServe()` has
returned an error `e`: the channel has capacity one, at most one value has
been sent on it, that value is `fmt.Errorf("failed to start server: %w", e)`,
and the channel is closed only once the goroutine is past the send; if
`main` has panicked, the panic value is that wrapping error, from which
`errors.Unwrap` gives back `e`, and `srv.Shutdown` has not been called.  If
no interrupt has arrived by then, then after any further steps without an
interrupt `srv.Shutdown` still has not been called and `main` either waits in
the `select` or has panicked that way; it has panicked as soon as no
statement of the program can run any more, and while it waits, statements
of the program alone lead it to that panic, which ends the process with
status 2. -/
theorem C5_listener_error_panics (swagger : Swagger) (t0 : Nat) (s : State) (e : GoError)
    (hr : Reachable (.ok swagger) t0 s) (he : s.listenErr = some (some e)) :
    (s.ch.cap = 1 ∧ s.sent.length ≤ 1 ∧ s.ch.buf.length ≤ 1
      ∧ (∀ x ∈ s.sent, x = startError e)
      ∧ (s.ch.closed = true → s.listener = .finished))
    ∧ (∀ v, s.main = .ended (.panicked v) →
        v = .error (some (startError e)) ∧ s.shutdownCalls = [])
    ∧ (startError e).Unwrap = some e
    ∧ (s.ctxDone = false → ∀ acts s1, Action.interrupt ∉ acts → main.run acts s = some s1 →
        s1.shutdownCalls = []
        ∧ (s1.main = .select ∨ s1.main = .ended (.panicked (.error (some (startError e)))))
        ∧ ((∀ a, a.isProgram = true → main.step s1 a = none) →
            s1.main = .ended (.panicked (.error (some (startError e))))
            ∧ s1.exitCode = some 2)
        ∧ (∃ more s2, (∀ a ∈ more, a.isProgram = true) ∧ main.run more s1 = some s2
            ∧ s2.main = .ended (.panicked (.error (some (startError e))))
            ∧ s2.shutdownCalls = [] ∧ s2.exitCode = some 2)) := by
  obtain ⟨h1, h2, h3, _, _⟩ := listenErr_facts swagger t0 s e hr he
  exact ⟨h1, h2, h3, fun hctx acts s1 hno hrun =>
    listenErr_progress swagger t0 s e hr he hctx acts s1 hno hrun⟩

/-- C5 at the end of `listenFailureRun`. -/
theorem C5_listener_error_panics_witness :
    (main.after listenFailureRun (main.start (.ok ⟨"", none⟩) 0)).listenErr
      = some (some (.base "accept tcp: too many open files"))
    ∧ (∀ v, (main.after listenFailureRun (main.start (.ok ⟨"", none⟩) 0)).main
          = .ended (.panicked v) →
        v = .error (some (startError (.base "accept tcp: too many open files")))
        ∧ (main.after listenFailureRun (main.start (.ok ⟨"", none⟩) 0)).shutdownCalls = [])
    ∧ (main.after listenFailureRun (main.start (.ok ⟨"", none⟩) 0)).main
      = .ended (.panicked (.error (some
          (startError (.base "accept tcp: too many open files"))))) :=
  ⟨by decide,
   (C5_listener_error_panics ⟨"", none⟩ 0
      (main.after listenFailureRun (main.start (.ok ⟨"", none⟩) 0))
      (.base "accept tcp: too many open files") ⟨listenFailureRun, by decide⟩ (by decide)).2.1,
   by decide⟩

/-- C6: in every state `main` can reach.  When the interrupt has arrived and
the channel holds nothing and is open, the `select` cannot take the channel
case and takes the `ctx.Done()` case: `srv.Shutdown` is called with a
deadline 10 seconds (10000000000 ns) after the call, and connections are no
longer accepted.  While `srv.Shutdown` runs: it has been called exactly
once, the clock is not past the deadline, no connection is accepted,
requests in flight go on being served, `srv.Shutdown` returns only when no
request is in flight or the deadline is reached and it can then return
whatever error value it likes, time cannot pass the deadline, and `main`
can always get to its return.  Once `main` has returned: `srv.Shutdown` was
called exactly once, at most 10 seconds before, either no request was in
flight any more or the full 10 seconds had passed, the exit status is 0, and
nothing runs any more (the requests left are cut by the end of the process).
After a call of `srv.Shutdown`, `main` never panics. -/
theorem C6_interrupt_graceful_shutdown (swagger : Swagger) (t0 : Nat) (s : State)
    (hr : Reachable (.ok swagger) t0 s) :
    shutdownTimeout = 10000000000
    ∧ (s.main = .select → s.ctxDone = true → s.ch.buf = [] → s.ch.closed = false →
        main.step s .mainRecv = none
        ∧ main.step s .mainCtxDone =
            some { s with main := .shutdown (s.now + shutdownTimeout), accepting := false,
                          shutdownCalls := [(s.now, s.now + shutdownTimeout)] })
    ∧ (∀ deadline, s.main = .shutdown deadline →
        (∃ t, s.shutdownCalls = [(t, t + shutdownTimeout)] ∧ deadline = t + shutdownTimeout
          ∧ t ≤ s.now)
        ∧ s.now ≤ deadline
        ∧ s.accepting = false
        ∧ (∀ work, main.step s (.accept work) = none)
        ∧ (∀ d, s.inflight ≠ [] → s.now + d ≤ deadline →
            ∃ s1, main.step s (.tick d) = some s1 ∧ s1.inflight = advance d s.inflight
              ∧ s1.main = .shutdown deadline)
        ∧ (∀ d, deadline < s.now + d → main.step s (.tick d) = none)
        ∧ (∀ err, s.inflight ≠ [] → s.now < deadline →
            main.step s (.shutdownReturn err) = none)
        ∧ (∀ err, s.inflight = [] ∨ s.now = deadline →
            main.step s (.shutdownReturn err) = some { s with main := .ended (.returned ()) })
        ∧ (∃ acts s1, main.run acts s = some s1 ∧ s1.main = .ended (.returned ())
            ∧ s1.now ≤ deadline ∧ s1.exitCode = some 0))
    ∧ (s.main = .ended (.returned ()) →
        ∃ t, s.shutdownCalls = [(t, t + shutdownTimeout)] ∧ t ≤ s.now
          ∧ s.now ≤ t + shutdownTimeout ∧ s.accepting = false
          ∧ (s.inflight = [] ∨ s.now = t + shutdownTimeout)
          ∧ s.exitCode = some 0
          ∧ (∀ a, main.step s a = none))
    ∧ (s.shutdownCalls ≠ [] → ∀ v, s.main ≠ .ended (.panicked v))
    ∧ s.shutdownCalls.length ≤ 1 := by
  obtain ⟨hcap, hl, hm⟩ := hr.inv
  unfold mainInv at hm
  refine ⟨by decide, ?_, ?_, ?_, ?_, ?_⟩
  · intro hsel hctx hbuf hclosed
    rw [hsel] at hm
    constructor
    · simp [main.step, hsel, MainPc.isEnded, hbuf, hclosed]
    · simp [main.step, hsel, MainPc.isEnded, hctx, hm.1]
  · intro deadline hsh
    rw [hsh] at hm
    obtain ⟨t, h1, h2, h3, h4, h5, h6, h7⟩ := hm
    refine ⟨⟨t, h1, h2, h3⟩, h4, h5, ?_, ?_, ?_, ?_, ?_, ?_⟩
    · intro work
      simp [main.step, hsh, MainPc.isEnded, h5]
    · intro d hin hd
      refine ⟨{ s with now := s.now + d, inflight := advance d s.inflight,
                       completed := s.completed + (s.inflight.filter (fun w => w ≤ d)).length },
        ?_, rfl, hsh⟩
      simp [main.step, hsh, MainPc.isEnded, hin, hd]
    · intro d hd
      have : ¬ (s.now + d ≤ deadline) := by omega
      simp [main.step, hsh, MainPc.isEnded, this]
    · intro err hin hlt
      have : ¬ (deadline ≤ s.now) := by omega
      simp [main.step, hsh, MainPc.isEnded, hin, this]
    · intro err hor
      have : s.inflight = [] ∨ deadline ≤ s.now := by
        rcases hor with h | h
        · exact Or.inl h
        · exact Or.inr (by omega)
      simp [main.step, hsh, MainPc.isEnded, this]
    · by_cases hin : s.inflight = []
      · refine ⟨[.shutdownReturn none], { s with main := .ended (.returned ()) }, ?_, rfl, h4,
          rfl⟩
        simp [main.run, main.step, hsh, MainPc.isEnded, hin]
      · refine ⟨[.tick (deadline - s.now), .shutdownReturn none],
          { s with now := s.now + (deadline - s.now),
                   inflight := advance (deadline - s.now) s.inflight,
                   completed := s.completed
                     + (s.inflight.filter (fun w => w ≤ deadline - s.now)).length,
                   main := .ended (.returned ()) }, ?_, rfl, ?_, rfl⟩
        · have h8 : s.now + (deadline - s.now) ≤ deadline := by omega
          have h9 : deadline ≤ s.now + (deadline - s.now) := by omega
          simp [main.run, main.step, hsh, MainPc.isEnded, hin, h8, h9]
        · show s.now + (deadline - s.now) ≤ deadline
          omega
  · intro hret
    rw [hret] at hm
    obtain ⟨t, h1, h2, h3, h4, h5, h6, h7⟩ := hm
    exact ⟨t, h1, h2, h3, h4, h6, by simp [State.exitCode, hret, Outcome.exitCode],
      fun a => by simp [main.step, hret, MainPc.isEnded]⟩
  · intro hcalls v hv
    rw [hv] at hm
    exact hcalls hm.1
  · cases hmm : s.main with
    | select => rw [hmm] at hm; simp [hm.1]
    | shutdown dl => rw [hmm] at hm; obtain ⟨t, h1, _⟩ := hm; simp [h1]
    | ended o =>
      cases o with
      | returned u => rw [hmm] at hm; obtain ⟨t, h1, _⟩ := hm; simp [h1]
      | exited c => rw [hmm] at hm; exact hm.elim
      | panicked v => rw [hmm] at hm; simp [hm.1]

/-- C6 at the end of `interruptRun`. -/
theorem C6_interrupt_graceful_shutdown_witness :
    (main.after interruptRun (main.start (.ok ⟨"", none⟩) 0)).main = .ended (.returned ())
    ∧ (∃ t, (main.after interruptRun (main.start (.ok ⟨"", none⟩) 0)).shutdownCalls
          = [(t, t + shutdownTimeout)]
        ∧ t ≤ (main.after interruptRun (main.start (.ok ⟨"", none⟩) 0)).now
        ∧ (main.after interruptRun (main.start (.ok ⟨"", none⟩) 0)).now ≤ t + shutdownTimeout
        ∧ (main.after interruptRun (main.start (.ok ⟨"", none⟩) 0)).accepting = false
        ∧ ((main.after interruptRun (main.start (.ok ⟨"", none⟩) 0)).inflight = []
          ∨ (main.after interruptRun (main.start (.ok ⟨"", none⟩) 0)).now = t + shutdownTimeout)
        ∧ (main.after interruptRun (main.start (.ok ⟨"", none⟩) 0)).exitCode = some 0
        ∧ (∀ a, main.step (main.after interruptRun (main.start (.ok ⟨"", none⟩) 0)) a = none)) :=
  ⟨by decide,
   (C6_interrupt_graceful_shutdown ⟨"", none⟩ 0
      (main.after interruptRun (main.start (.ok ⟨"", none⟩) 0))
      ⟨interruptRun, by decide⟩).2.2.2.1 (by decide)⟩

/-- C7, the claim as stated fails: when the API description fails to load,
`NewRouter` ends the process with `os.Exit(1)`, which is not a panic. -/
theorem C7_load_failure_counterexample :
    (NewRouter (.error (.base "error decompressing spec")) rest.NewServer).outcome = .exited 1
    ∧ (NewRouter (.error (.base "error decompressing spec")) rest.NewServer).outcome.isPanic
        = false
    ∧ (main.start (.error (.base "error decompressing spec")) 0).main = .ended (.exited 1) := by
  decide

/-- C7, amended: abnormal termination is always with a non-zero exit status.
When the API description fails to load, `NewRouter` reports on standard
error and the process ends by `os.Exit(1)`, status 1, without a panic and
before anything else runs.  When it loads, `main` ends in one of two ways
only: by returning after a call of `srv.Shutdown`, status 0, or, without a
call of `srv.Shutdown` and after `srv.ListenAndServe()` has returned, by a
panic, status 2, whose value is the value received from the channel: the
one value sent on it, `fmt.Errorf("failed to start server: %w", e)` for the
error `e` the listener returned (the nil value of the closed channel if the
listener returned nil).  And when the listener fails, that is when
`srv.ListenAndServe()` has returned an error `e` and no interrupt has
arrived, then, whatever happens next short of an interrupt, `main` waits in
the `select` or has panicked with that wrapping error, it has panicked, with
status 2, once no statement of the program can run, and statements of the
program alone lead it to this panic; `errors.Unwrap` of the panic value
gives back `e`. -/
theorem C7_abnormal_termination (err : GoError) (swagger : Swagger) (t0 : Nat) :
    ((NewRouter (.error err) rest.NewServer).outcome = .exited 1
      ∧ (NewRouter (.error err) rest.NewServer).outcome.isPanic = false
      ∧ (main.start (.error err) t0).main = .ended (.exited 1)
      ∧ (main.start (.error err) t0).exitCode = some 1
      ∧ (main.start (.error err) t0).stderr = "Error loading swagger spec\n: " ++ err.Error
      ∧ (∀ a, main.step (main.start (.error err) t0) a = none))
    ∧ (∀ s, Reachable (.ok swagger) t0 s → ∀ o, s.main = .ended o →
        (o = .returned () ∧ s.shutdownCalls ≠ [] ∧ s.exitCode = some 0)
        ∨ (∃ le, s.listenErr = some le
            ∧ o = .panicked (.error (le.map startError))
            ∧ s.sent = (le.map startError).toList
            ∧ s.shutdownCalls = [] ∧ s.exitCode = some 2))
    ∧ (∀ s e, Reachable (.ok swagger) t0 s → s.listenErr = some (some e) →
        s.ctxDone = false →
        ∀ acts s1, Action.interrupt ∉ acts → main.run acts s = some s1 →
          s1.shutdownCalls = []
          ∧ (s1.main = .select
            ∨ s1.main = .ended (.panicked (.error (some (startError e)))))
          ∧ ((∀ a, a.isProgram = true → main.step s1 a = none) →
              s1.main = .ended (.panicked (.error (some (startError e))))
              ∧ s1.exitCode = some 2)
          ∧ (∃ more s2, (∀ a ∈ more, a.isProgram = true) ∧ main.run more s1 = some s2
              ∧ s2.main = .ended (.panicked (.error (some (startError e))))
              ∧ s2.shutdownCalls = [] ∧ s2.exitCode = some 2))
    ∧ (∀ e : GoError, (startError e).Unwrap = some e) := by
  refine ⟨⟨rfl, rfl, rfl, rfl, ?_, ?_⟩, ?_, ?_, fun _ => rfl⟩
  · simp [main.start, NewRouter, RouterRun.stderrText, String.join]
  · intro a
    rfl
  · intro s hr o ho
    obtain ⟨hcap, hl, hm⟩ := hr.inv
    unfold mainInv at hm
    rw [ho] at hm
    cases o with
    | returned u =>
      obtain ⟨t, h1, _⟩ := hm
      exact Or.inl ⟨rfl, by simp [h1], by simp [State.exitCode, ho, Outcome.exitCode]⟩
    | exited c => exact hm.elim
    | panicked v =>
      obtain ⟨h1, h2, h3⟩ := hm
      have hexit : s.exitCode = some 2 := by simp [State.exitCode, ho, Outcome.exitCode]
      right
      unfold listenerInv at hl
      split at hl
      · exact hl.elim
      · rcases h3 with ⟨x, _, hsx⟩ | ⟨_, _, hc⟩
        · simp [hl.2.1] at hsx
        · simp [hl.2.2] at hc
      · rcases h3 with ⟨x, _, hsx⟩ | ⟨_, _, hc⟩
        · simp [hl.2.1] at hsx
        · simp [hl.2.2] at hc
      · obtain ⟨le, hle, hsent, hclosed⟩ := hl
        rcases h3 with ⟨x, hx, hsx⟩ | ⟨_, _, hc⟩
        · refine ⟨le, hle, ?_, hsent, h1, hexit⟩
          cases le with
          | none => simp [hsx] at hsent
          | some e1 =>
            simp [hsx] at hsent
            rw [hx, hsent]
            rfl
        · simp [hclosed] at hc
      · obtain ⟨le, hle, hsent, hclosed⟩ := hl
        rcases h3 with ⟨x, hx, hsx⟩ | ⟨hv, hs0, hc⟩
        · refine ⟨le, hle, ?_, hsent, h1, hexit⟩
          cases le with
          | none => simp [hsx] at hsent
          | some e1 =>
            simp [hsx] at hsent
            rw [hx, hsent]
            rfl
        · refine ⟨le, hle, ?_, hsent, h1, hexit⟩
          cases le with
          | none => rw [hv]; rfl
          | some e1 => simp [hs0] at hsent
  · intro s e hr he hctx acts s1 hno hrun
    exact listenErr_progress swagger t0 s e hr he hctx acts s1 hno hrun

/-- C7 (amended) at a listener that fails while serving: from the state in
which `srv.ListenAndServe()` has just returned the error, the goroutine's
send and close and the receive of the `select` leave `main` panicked, with
`srv.Shutdown` never called. -/
theorem C7_abnormal_termination_witness :
    (main.after listenFailureRun (main.start (.ok ⟨"", none⟩) 0)).shutdownCalls = []
    ∧ ((main.after listenFailureRun (main.start (.ok ⟨"", none⟩) 0)).main = .select
      ∨ (main.after listenFailureRun (main.start (.ok ⟨"", none⟩) 0)).main
        = .ended (.panicked (.error (some
            (startError (.base "accept tcp: too many open files")))))) :=
  let h := (C7_abnormal_termination (.base "no description") ⟨"", none⟩ 0).2.2.1
    (main.after [.bind, .listenReturn (some (.base "accept tcp: too many open files"))]
      (main.start (.ok ⟨"", none⟩) 0))
    (.base "accept tcp: too many open files")
    ⟨[.bind, .listenReturn (some (.base "accept tcp: too many open files"))], by decide⟩
    (by decide) (by decide)
    [.listenerIf, .listenerClose, .mainRecv]
    (main.after listenFailureRun (main.start (.ok ⟨"", none⟩) 0))
    (by decide) (by decide)
  ⟨h.1, h.2.1⟩

/-- C9 (amended) at a preflight from `https://app.example.com` that asks for
`put` with the header `x-csrf-token`. -/
theorem C9_preflight_allowed_witness :
    Header.Get (installedCors (fun s => [s]) (fun w _ => w) ResponseWriter.fresh
        ⟨"OPTIONS", "/", "",
          [("Origin", ["https://app.example.com"]), ("Access-Control-Request-Method", ["put"]),
            ("Access-Control-Request-Headers", ["x-csrf-token"])], ""⟩).sentHeader
        "Access-Control-Allow-Origin" = "https://app.example.com"
    ∧ Header.Get (installedCors (fun s => [s]) (fun w _ => w) ResponseWriter.fresh
        ⟨"OPTIONS", "/", "",
          [("Origin", ["https://app.example.com"]), ("Access-Control-Request-Method", ["put"]),
            ("Access-Control-Request-Headers", ["x-csrf-token"])], ""⟩).sentHeader
        "Access-Control-Allow-Methods" = "PUT" :=
  ⟨(C9_preflight_allowed (fun s => [s]) (fun w _ => w)
      ⟨"OPTIONS", "/", "",
        [("Origin", ["https://app.example.com"]), ("Access-Control-Request-Method", ["put"]),
          ("Access-Control-Request-Headers", ["x-csrf-token"])], ""⟩
      rfl (by decide) (by decide) (by decide)).2.1,
   (C9_preflight_allowed (fun s => [s]) (fun w _ => w)
      ⟨"OPTIONS", "/", "",
        [("Origin", ["https://app.example.com"]), ("Access-Control-Request-Method", ["put"]),
          ("Access-Control-Request-Headers", ["x-csrf-token"])], ""⟩
      rfl (by decide) (by decide) (by decide)).2.2.1⟩

end GoApiTemplate
